import Mathlib

/-!
# repx: authentication core

A shallow embedding of the credential, token, login, authentication and
workout handler code of the workout service (`internal/models/password.go`,
`internal/tokens/tokens.go`, `internal/store/token_store.go`,
`internal/store/user_store.go`, `internal/api/token_handler.go`,
`internal/middleware/middleware.go`, `internal/utils/utils.go`,
`internal/api/workout_handler.go` and the queries of
`internal/store/workout_store.go`) together with the properties proved of it.

Conventions of the embedding

* A Go `string` is a Lean `String`; `[]byte(s)` is its UTF-8 encoding
  (`bytesOf`).  A `[]byte` is a `List UInt8` (a nil slice is the empty list).
* A Go `error` is a value of `Error`; the nil error is `none`.  A Go result
  `(*T, error)` is a pair `Option T × Option Error`, so that "a nil pointer
  together with an error" is a statement about the pair and not a fact of
  the type.
* `time.Time` and `time.Duration` are integers counting nanoseconds, and
  `Time.Add` is addition.  The tables hold the values they are given (no
  rounding of timestamps by the column type).
* What the program reads from its environment is an explicit argument: the
  clock (`now`), the system randomness (`RandReader`) and the verdict of the
  database on a statement that writes (`fault`).
* A handler is embedded as a function from what it reads of the request to a
  record of what it did: the response it handed to `utils.WriteJSON`, whether
  it panicked, the calls it made to the store, and for a middleware the
  request it passed to the next handler.  Logging and the `Vary` header are
  left out.  The stores behind the interfaces answer each call of a request
  from the state the request found.
* A `*models.User` is a `UserPtr`: nil, the sentinel `models.AnonymousUser`, or
  a pointer to a user record.
* The packages the program imports but does not contain are parameters:
  `bcrypt` (structure `Bcrypt`, with its documented contract `Bcrypt.Lawful`)
  and `sha256.Sum256` (a function argument `sha256`).  `encoding/base32` is
  small enough to be written out (`base32.EncodeToString`); it is compared
  with a second definition that follows the words of RFC 4648
  (`base32.rfc4648`) and with the test vectors of the RFC.
-/

namespace Repx

/-! ## Errors, bytes, randomness -/

/-- Go `error` values met by the code: the sentinels of `bcrypt` and
`database/sql` that the code or its callers distinguish, and any other. -/
inductive Error where
  | ErrMismatchedHashAndPassword
  | ErrHashTooShort
  | ErrPasswordTooLong
  | ErrNoRows
  | other (msg : String)
deriving DecidableEq, Repr

/-- Go `errors.Is(err, target)` for the unwrapped errors above. -/
def errorsIs (err target : Error) : Bool := decide (err = target)

/-- Go `[]byte(s)`: the UTF-8 bytes of a string. -/
def bytesOf (s : String) : List UInt8 := s.data.flatMap String.utf8EncodeChar

/-- The system randomness `crypto/rand.Reader`: it either fails with an error
or yields a stream of bytes. -/
structure RandReader where
  fail : Option Error
  stream : Nat → UInt8

/-- Go `rand.Read(b)` / `io.ReadFull(rand.Reader, b)`: the contents of the
buffer after the call and the error.  A working reader fills the whole buffer;
a failing one leaves it as it was. -/
def RandReader.Read (r : RandReader) (b : List UInt8) : List UInt8 × Option Error :=
  match r.fail with
  | some err => (b, some err)
  | none => ((List.range b.length).map r.stream, none)

/-- The 16 bytes that a working reader hands to `GenerateFromPassword` as salt. -/
def RandReader.salt (r : RandReader) : List UInt8 := (List.range 16).map r.stream

/-! ## The bcrypt package (imported, taken as a parameter) -/

/-- The primitives of `golang.org/x/crypto/bcrypt`, which the repository
imports: `digest password cost salt` is the key derivation `bcrypt(...)`,
`encode cost salt digest` is the serialisation `hashed.Hash()` of a hashed
password, `decode` is its parser `newFromHash`. -/
structure Bcrypt where
  digest : List UInt8 → Nat → List UInt8 → List UInt8
  encode : Nat → List UInt8 → List UInt8 → List UInt8
  decode : List UInt8 → Except Error (Nat × List UInt8 × List UInt8)

/-- The documented contract of the package: the serialised hash of a password
parses back to its parts (for a cost within `MinCost = 4` and `MaxCost = 31`
and a salt of `maxSaltSize = 16` bytes), a hash shorter than
`minHashSize = 59` is rejected with `ErrHashTooShort`, and the key derivation
reads at most the first 72 bytes of the password (the Blowfish key schedule
consumes 72 bytes of key, which is why `GenerateFromPassword` refuses longer
passwords while `CompareHashAndPassword` does not look at the length). -/
structure Bcrypt.Lawful (B : Bcrypt) : Prop where
  decode_encode : ∀ password cost salt, 4 ≤ cost → cost ≤ 31 → salt.length = 16 →
    B.decode (B.encode cost salt (B.digest password cost salt))
      = .ok (cost, salt, B.digest password cost salt)
  decode_short : ∀ h, h.length < 59 → B.decode h = .error Error.ErrHashTooShort
  digest_take : ∀ password cost salt,
    B.digest password cost salt = B.digest (password.take 72) cost salt

/-- Go `bcrypt.GenerateFromPassword(password, cost)`: passwords longer than 72
bytes are refused, a 16-byte salt is drawn, and the serialised hash returned. -/
def Bcrypt.GenerateFromPassword (B : Bcrypt) (rng : RandReader) (password : List UInt8)
    (cost : Nat) : Option (List UInt8) × Option Error :=
  if password.length > 72 then (none, some Error.ErrPasswordTooLong)
  else
    match rng.Read (List.replicate 16 0) with
    | (_, some err) => (none, some err)
    | (salt, none) => (some (B.encode cost salt (B.digest password cost salt)), none)

/-- Go `bcrypt.CompareHashAndPassword(hashedPassword, password)`: parse the
stored hash, derive the digest of the candidate under the stored cost and
salt, and compare the two serialisations. -/
def Bcrypt.CompareHashAndPassword (B : Bcrypt) (hashedPassword password : List UInt8) :
    Option Error :=
  match B.decode hashedPassword with
  | .error err => some err
  | .ok (cost, salt, d) =>
    if B.encode cost salt (B.digest password cost salt) = B.encode cost salt d then none
    else some Error.ErrMismatchedHashAndPassword

/-- A small concrete instance of the package contract, used to evaluate the
definitions on concrete inputs: the digest is the first 72 bytes of the
password padded with zero bytes to 72, and a hash is the cost byte followed by
the 16 salt bytes and the digest (89 bytes). -/
def Bcrypt.model : Bcrypt where
  digest := fun password _ _ => (password ++ List.replicate 72 0).take 72
  encode := fun cost salt d => UInt8.ofNat cost :: (salt ++ d)
  decode := fun h =>
    if h.length < 59 then .error Error.ErrHashTooShort
    else
      match h with
      | [] => .error Error.ErrHashTooShort
      | c :: rest => .ok (c.toNat, rest.take 16, rest.drop 16)

/-! ## internal/models/password.go -/

/-- Go `models.Password`. -/
structure Password where
  Plaintext : String
  Hash : List UInt8
deriving DecidableEq, Repr

/-- Go `(*Password).Set`: the receiver after the call and the returned error. -/
def Password.Set (B : Bcrypt) (rng : RandReader) (p : Password) (plainTextPassword : String) :
    Password × Option Error :=
  match B.GenerateFromPassword rng (bytesOf plainTextPassword) 13 with
  | (_, some err) => (p, some err)
  | (hash, none) => ({ Plaintext := plainTextPassword, Hash := hash.getD [] }, none)

/-- Go `(*Password).Match`. -/
def Password.Match (B : Bcrypt) (p : Password) (plainTextPassword : String) :
    Bool × Option Error :=
  match B.CompareHashAndPassword p.Hash (bytesOf plainTextPassword) with
  | some err =>
    if errorsIs err Error.ErrMismatchedHashAndPassword then (false, none)
    else (false, some err)
  | none => (true, none)

/-! ## encoding/base32 (standard library, written out) -/

namespace base32

/-- The alphabet `encodeStd` of RFC 4648. -/
def encodeStd : List Char := "ABCDEFGHIJKLMNOPQRSTUVWXYZ234567".toList

/-- The table lookup `enc.encode[v & 0x1F]`. -/
def encodeChar (v : Nat) : Char := encodeStd.getD (v &&& 0x1F) (Char.ofNat 65)

/-- One full quantum of `Encode`: five bytes give eight characters. -/
def encodeQuantum (b0 b1 b2 b3 b4 : UInt8) : List Char :=
  let hi : Nat := (b0.toNat <<< 24) ||| (b1.toNat <<< 16) ||| (b2.toNat <<< 8) ||| b3.toNat
  let lo : Nat := ((hi <<< 8) ||| b4.toNat) % 2 ^ 32
  [encodeChar (hi >>> 27), encodeChar (hi >>> 22), encodeChar (hi >>> 17),
   encodeChar (hi >>> 12), encodeChar (hi >>> 7), encodeChar (hi >>> 2),
   encodeChar (lo >>> 5), encodeChar lo]

/-- The characters `Encode` writes for the final quantum of one to four
bytes, before padding. -/
def encodeRemain : List UInt8 → List Char
  | [b0] =>
    let val := b0.toNat <<< 24
    [encodeChar (val >>> 27), encodeChar (val >>> 22)]
  | [b0, b1] =>
    let v1 := b1.toNat <<< 16
    let val := v1 ||| (b0.toNat <<< 24)
    [encodeChar (val >>> 27), encodeChar (val >>> 22), encodeChar (v1 >>> 17),
     encodeChar (v1 >>> 12)]
  | [b0, b1, b2] =>
    let v2 := b2.toNat <<< 8
    let v1 := v2 ||| (b1.toNat <<< 16)
    let val := v1 ||| (b0.toNat <<< 24)
    [encodeChar (val >>> 27), encodeChar (val >>> 22), encodeChar (v1 >>> 17),
     encodeChar (v1 >>> 12), encodeChar (v2 >>> 7)]
  | [b0, b1, b2, b3] =>
    let v3 := b3.toNat
    let v2 := v3 ||| (b2.toNat <<< 8)
    let v1 := v2 ||| (b1.toNat <<< 16)
    let val := v1 ||| (b0.toNat <<< 24)
    [encodeChar (val >>> 27), encodeChar (val >>> 22), encodeChar (v1 >>> 17),
     encodeChar (v1 >>> 12), encodeChar (v2 >>> 7), encodeChar (v3 >>> 2),
     encodeChar (v3 <<< 3)]
  | _ => []

/-- Go `(*Encoding).Encode` of the standard alphabet: full quanta first, then
the final one, padded to eight characters when the encoding has a padding
character (`padChar = none` is `NoPadding`). -/
def Encode (padChar : Option Char) : List UInt8 → List Char
  | b0 :: b1 :: b2 :: b3 :: b4 :: rest =>
    encodeQuantum b0 b1 b2 b3 b4 ++ Encode padChar rest
  | [] => []
  | remain =>
    let out := encodeRemain remain
    match padChar with
    | none => out
    | some c => out ++ List.replicate (8 - out.length) c

/-- Go `enc.EncodeToString(src)`. -/
def EncodeToString (padChar : Option Char) (src : List UInt8) : String :=
  String.mk (Encode padChar src)

end base32

/-! ## RFC 4648, section 6: the base 32 encoding as the standard words it -/

namespace base32

/-- RFC 4648, table 3: the character of a 5-bit value, `A` to `Z` for 0 to 25
and `2` to `7` for 26 to 31. -/
def rfcChar (v : Nat) : Char := if v < 26 then Char.ofNat (65 + v) else Char.ofNat (24 + v)

/-- The bits of a group of bytes concatenated, first byte first, read as one
number. -/
def groupValue (bs : List UInt8) : Nat := bs.foldl (fun n b => n * 256 + b.toNat) 0

/-- RFC 4648 on one input group of at most five bytes: the bits are
concatenated, zero bits are added on the right to make their number a multiple
of 5, and each 5-bit group, from the left, is translated by table 3. -/
def rfcGroup (bs : List UInt8) : List Char :=
  let m := (8 * bs.length + 4) / 5
  let n := groupValue bs * 2 ^ (5 * m - 8 * bs.length)
  (List.range m).map fun k => rfcChar (n / 2 ^ (5 * (m - 1 - k)) % 32)

/-- RFC 4648 without padding: the input is cut, from the left, into groups of
five bytes, the last group having what remains. -/
def rfc4648 : List UInt8 → List Char
  | b0 :: b1 :: b2 :: b3 :: b4 :: rest => rfcGroup [b0, b1, b2, b3, b4] ++ rfc4648 rest
  | remain => rfcGroup remain

end base32

/-! ## internal/tokens/tokens.go -/

/-- Go `tokens.ScopeAuth`. -/
def ScopeAuth : String := "authentication"

/-- Go `time.Hour`, in nanoseconds. -/
def Hour : Int := 3600 * 1000000000

/-- Go `tokens.Token`. -/
structure Token where
  PlainText : String
  Hash : List UInt8
  UserID : Int
  Expiry : Int
  Scope : String
deriving DecidableEq, Repr

/-- Go `tokens.GenerateToken`; `now` is the reading of `time.Now()`. -/
def GenerateToken (sha256 : List UInt8 → List UInt8) (now : Int) (rng : RandReader)
    (userID : Int) (ttl : Int) (scope : String) : Option Token × Option Error :=
  let token : Token :=
    { PlainText := "", Hash := [], UserID := userID, Expiry := now + ttl, Scope := scope }
  match rng.Read (List.replicate 32 0) with
  | (_, some err) => (none, some err)
  | (emptyBytes, none) =>
    let plainText := base32.EncodeToString none emptyBytes
    (some { token with PlainText := plainText, Hash := sha256 (bytesOf plainText) }, none)

/-! ## internal/store: the database and the token and user stores -/

/-- Modelled from the spec: the declaration of `models.User` is not among the
sources; the fields are those of the identity record of the specification
(numeric ID, username, email, bio, credential hash, creation and update
timestamps), under the names the stores and handlers use. -/
structure User where
  ID : Int
  Username : String
  Email : String
  PasswordHash : Password
  Bio : String
  CreatedAt : Int
  UpdatedAt : Int
deriving DecidableEq, Repr

/-- A row of the table `users`, with the columns the queries name. -/
structure UserRow where
  id : Int
  username : String
  email : String
  password_hash : List UInt8
  bio : String
  created_at : Int
  updated_at : Int
deriving DecidableEq, Repr

/-- A row of the table `tokens`, with the columns of the `INSERT`. -/
structure TokenRow where
  hash : List UInt8
  user_id : Int
  expiry : Int
  scope : String
deriving DecidableEq, Repr

/-- The contents of the database the stores hold a handle on. -/
structure DB where
  users : List UserRow
  tokens : List TokenRow
deriving DecidableEq, Repr

/-- The row that `Insert` writes for a token. -/
def Token.row (token : Token) : TokenRow :=
  { hash := token.Hash, user_id := token.UserID, expiry := token.Expiry, scope := token.Scope }

/-- Go `(*PostgresTokenStore).Insert`: the database after the call and the
error.  `fault` is the verdict of the database on the statement (a lost
connection, a violated constraint); without one the row is added. -/
def PostgresTokenStore.Insert (fault : Option Error) (db : DB) (token : Token) :
    DB × Option Error :=
  match fault with
  | some err => (db, some err)
  | none => ({ db with tokens := db.tokens ++ [token.row] }, none)

/-- Go `(*PostgresTokenStore).CreateNewToken`: the database after the call, the
token and the error.  (`GenerateToken` never returns a nil token with a nil
error, see `GenerateToken_cases`; were it to, `Insert` would dereference nil
and no token would be returned either.) -/
def PostgresTokenStore.CreateNewToken (sha256 : List UInt8 → List UInt8) (now : Int)
    (rng : RandReader) (fault : Option Error) (db : DB) (userID : Int) (ttl : Int)
    (scope : String) : DB × Option Token × Option Error :=
  match GenerateToken sha256 now rng userID ttl scope with
  | (_, some err) => (db, none, some err)
  | (none, none) => (db, none, some (Error.other "panic: nil pointer dereference"))
  | (some token, none) =>
    match PostgresTokenStore.Insert fault db token with
    | (db1, some err) => (db1, none, some err)
    | (db1, none) => (db1, some token, none)

/-- The rows of the query of `GetUserByToken`:
`SELECT u.* FROM users u INNER JOIN tokens t ON t.user_id = u.id
 WHERE t.hash = $1 AND t.scope = $2 AND t.expiry > $3`. -/
def DB.selectUserByToken (db : DB) (hash : List UInt8) (scope : String) (now : Int) :
    List UserRow :=
  db.users.flatMap fun u =>
    (db.tokens.filter fun t =>
      decide (t.user_id = u.id ∧ t.hash = hash ∧ t.scope = scope ∧ t.expiry > now)).map
      fun _ => u

/-- The `Scan` of a row of `users` into a `models.User`. -/
def UserRow.scan (r : UserRow) : User :=
  { ID := r.id, Username := r.username, Email := r.email,
    PasswordHash := { Plaintext := "", Hash := r.password_hash },
    Bio := r.bio, CreatedAt := r.created_at, UpdatedAt := r.updated_at }

/-- Go `(*PostgresUserStore).GetUserByToken`; `now` is the reading of
`time.Now()`.  `QueryRow(...).Scan` takes the first row of the result and
reports `sql.ErrNoRows` when there is none. -/
def PostgresUserStore.GetUserByToken (sha256 : List UInt8 → List UInt8) (now : Int) (db : DB)
    (scope plaintextToken : String) : Option User × Option Error :=
  let tokenHash := sha256 (bytesOf plaintextToken)
  match db.selectUserByToken tokenHash scope now with
  | [] => (none, some Error.ErrNoRows)
  | r :: _ => (some r.scan, none)

/-- Go `store.UserStore`, the methods the handlers of this development call. -/
structure UserStore where
  GetUserByUsername : String → Option User × Option Error
  GetUserByToken : String → String → Option User × Option Error

/-- Go `store.TokenStore`, the method the login handler calls. -/
structure TokenStore where
  CreateNewToken : Int → Int → String → Option Token × Option Error

/-! ## internal/api/token_handler.go -/

/-- Go `createTokenRequest`. -/
structure createTokenRequest where
  Username : String
  Password : String
deriving DecidableEq, Repr

/-- Go `TokenHandler` (the logger left out). -/
structure TokenHandler where
  tokenStore : TokenStore
  userStore : UserStore

/-- What `utils.WriteJSON` is given: the HTTP status and the envelope. -/
structure Response where
  code : Nat
  status : String
  message : String
  auth_token : Option Token
deriving DecidableEq, Repr

/-- The observable effect of one run of `HandleCreateToken`: the response
written (`none` when the handler panicked before writing one) and the calls
made to `tokenStore.CreateNewToken`, with their arguments. -/
structure LoginRun where
  response : Option Response
  created : List (Int × Int × String)
deriving DecidableEq, Repr

/-- Go `(*TokenHandler).HandleCreateToken`.  `req` and `decodeErr` are what
`json.NewDecoder(r.Body).Decode(req)` leaves in `req` and returns. -/
def TokenHandler.HandleCreateToken (B : Bcrypt) (th : TokenHandler) (req : createTokenRequest)
    (decodeErr : Option Error) : LoginRun :=
  match decodeErr with
  | some _ =>
    { response := some
        { code := 400, status := "fail",
          message := "Invalid request payload. Please ensure all fields are correctly provided.",
          auth_token := none },
      created := [] }
  | none =>
    match th.userStore.GetUserByUsername req.Username with
    | (_, some _) | (none, none) =>
      { response := some
          { code := 404, status := "fail",
            message := "User not found or incorrect credentials provided.",
            auth_token := none },
        created := [] }
    | (some user, none) =>
      match user.PasswordHash.Match B req.Password with
      | (_, some _) =>
        { response := some
            { code := 404, status := "error",
              message := "User not found or incorrect credentials provided.",
              auth_token := none },
          created := [] }
      | (false, none) =>
        { response := some
            { code := 401, status := "fail",
              message := "Invalid username or password. Please try again.",
              auth_token := none },
          created := [] }
      | (true, none) =>
        match th.tokenStore.CreateNewToken user.ID (24 * Hour) ScopeAuth with
        | (_, some _) =>
          { response := some
              { code := 500, status := "error",
                message := "Failed to create an authentication token due to a server error.",
                auth_token := none },
            created := [(user.ID, 24 * Hour, ScopeAuth)] }
        | (none, none) =>
          { response := none, created := [(user.ID, 24 * Hour, ScopeAuth)] }
        | (some token, none) =>
          { response := some
              { code := 201, status := "success", message := "", auth_token := some token },
            created := [(user.ID, 24 * Hour, ScopeAuth)] }

/-! ## internal/store/user_store.go: CreateUser -/

/-- Go `(*PostgresUserStore).CreateUser`: the database after the call, the user
after the call and the error.  `fault` is the verdict of the database on the
`INSERT`; `newID`, `createdAt` and `updatedAt` are the values the database
returns for `RETURNING id, created_at, updated_at`. -/
def PostgresUserStore.CreateUser (fault : Option Error) (newID createdAt updatedAt : Int)
    (db : DB) (user : User) : DB × User × Option Error :=
  match fault with
  | some err => (db, user, some err)
  | none =>
    ({ db with
        users := db.users ++
          [{ id := newID, username := user.Username, email := user.Email,
             password_hash := user.PasswordHash.Hash, bio := user.Bio,
             created_at := createdAt, updated_at := updatedAt }] },
     { user with ID := newID, CreatedAt := createdAt, UpdatedAt := updatedAt }, none)

/-! ## strings.Split (standard library, for a separator of one character) -/

namespace strings

/-- The pieces of a list of characters between the occurrences of `sep`. -/
def splitChars (sep : Char) : List Char → List (List Char)
  | [] => [[]]
  | c :: cs =>
    if c = sep then [] :: splitChars sep cs
    else
      match splitChars sep cs with
      | [] => [[c]]
      | p :: ps => (c :: p) :: ps

/-- Go `strings.Split(s, sep)` for a separator `sep` of one character, as in
the only call `strings.Split(authHeader, " ")`: `n` occurrences of the
separator give `n + 1` pieces, empty ones included. -/
def Split (s : String) (sep : Char) : List String :=
  (splitChars sep s.data).map String.mk

end strings

/-! ## internal/middleware/middleware.go -/

/-- Modelled from the spec: `models.AnonymousUser` and `(*User).IsAnonymous`
are declared in `models/user.go`, which is not among the sources.  The
specification describes the identity of a request as either `Anonymous`, a
distinguished sentinel identity, or `Authenticated(User)`.  A value of type
`*models.User` is therefore nil, the sentinel `AnonymousUser`, or a pointer to
a user record; pointers are compared by identity, so no user record is equal
to the sentinel. -/
inductive UserPtr where
  | nil
  | AnonymousUser
  | ptr (u : User)
deriving DecidableEq, Repr

/-- Modelled from the spec: `(*User).IsAnonymous` is not among the sources; the
identity is anonymous when it is the sentinel. -/
def UserPtr.IsAnonymous (u : UserPtr) : Bool := decide (u = UserPtr.AnonymousUser)

/-- What the code reads of a `*http.Request`: the value
`r.Header.Get("Authorization")` (the empty string when the header is absent),
the URL parameter `chi.URLParam(r, "id")`, and the value of the request context
under `UserContextKey` (`none` when there is none of type `*models.User`). -/
structure Request where
  Authorization : String
  idParam : String
  user : Option UserPtr
deriving DecidableEq, Repr

/-- Go `middleware.SetUser`. -/
def SetUser (r : Request) (user : UserPtr) : Request := { r with user := some user }

/-- Go `middleware.GetUser`: the user of the request context; `none` stands for
`panic("missing user in request")`. -/
def GetUser (r : Request) : Option UserPtr :=
  match r.user with
  | some user => some user
  | none => none

/-- Go `UserMiddleware`. -/
structure UserMiddleware where
  UserStore : UserStore

/-- The observable effect of one run of a middleware: the response it wrote
itself (`none` when it wrote none), whether it panicked, the calls it made to
`UserStore.GetUserByToken` with their arguments (scope, token), and the request
it passed to `next.ServeHTTP` (`none` when it did not invoke `next`). -/
structure MiddlewareRun where
  response : Option Response
  panicked : Bool
  resolved : List (String × String)
  next : Option Request
deriving DecidableEq, Repr

/-- Go `(*UserMiddleware).Authenticate`, the handler it returns run on `r`. -/
def UserMiddleware.Authenticate (um : UserMiddleware) (r : Request) : MiddlewareRun :=
  let authHeader := r.Authorization
  if authHeader = "" then
    { response := none, panicked := false, resolved := [],
      next := some (SetUser r UserPtr.AnonymousUser) }
  else
    let headerParts := strings.Split authHeader (Char.ofNat 32)
    if headerParts.length ≠ 2 ∨ headerParts.getD 0 "" ≠ "Bearer" then
      { response := some
          { code := 401, status := "fail", message := "Invalid authorization header.",
            auth_token := none },
        panicked := false, resolved := [], next := none }
    else
      let token := headerParts.getD 1 ""
      match um.UserStore.GetUserByToken ScopeAuth token with
      | (_, some _) | (none, none) =>
        { response := some
            { code := 401, status := "fail", message := "Token expired, or invalid token.",
              auth_token := none },
          panicked := false, resolved := [(ScopeAuth, token)], next := none }
      | (some user, none) =>
        { response := none, panicked := false, resolved := [(ScopeAuth, token)],
          next := some (SetUser r (UserPtr.ptr user)) }

/-- Go `(*UserMiddleware).RequireUser`, the handler it returns run on `r`. -/
def UserMiddleware.RequireUser (r : Request) : MiddlewareRun :=
  match GetUser r with
  | none => { response := none, panicked := true, resolved := [], next := none }
  | some user =>
    if user.IsAnonymous then
      { response := some
          { code := 401, status := "fail",
            message := "You must be logged in to access this route.", auth_token := none },
        panicked := false, resolved := [], next := none }
    else
      { response := none, panicked := false, resolved := [], next := some r }

/-- The response of `Authenticate` to a malformed header. -/
def invalidHeader : MiddlewareRun :=
  { response := some
      { code := 401, status := "fail", message := "Invalid authorization header.",
        auth_token := none },
    panicked := false, resolved := [], next := none }

/-- The response of `Authenticate` when the resolver returns no user. -/
def invalidToken (token : String) : MiddlewareRun :=
  { response := some
      { code := 401, status := "fail", message := "Token expired, or invalid token.",
        auth_token := none },
    panicked := false, resolved := [("authentication", token)], next := none }

/-! ## strconv.ParseInt (standard library) and internal/utils/utils.go -/

namespace strconv

/-- The value of a string of decimal digits read after `acc`; `none` when a
character is not a digit. -/
def digitsValue (acc : Nat) : List Char → Option Nat
  | [] => some acc
  | c :: cs =>
    if 48 ≤ c.toNat ∧ c.toNat ≤ 57 then digitsValue (acc * 10 + (c.toNat - 48)) cs
    else none

/-- Go `strconv.ParseInt(s, 10, 64)`: an optional sign and at least one decimal
digit, the value within the range of `int64`. -/
def ParseInt (s : String) : Int × Option Error :=
  match s.data with
  | [] => (0, some (Error.other "invalid syntax"))
  | c :: cs =>
    let neg : Bool := decide (c.toNat = 45)
    let digits := if c.toNat = 43 ∨ c.toNat = 45 then cs else c :: cs
    match digits, digitsValue 0 digits with
    | [], _ => (0, some (Error.other "invalid syntax"))
    | _, none => (0, some (Error.other "invalid syntax"))
    | _, some un =>
      if neg = false ∧ un ≥ 2 ^ 63 then (2 ^ 63 - 1, some (Error.other "value out of range"))
      else if neg = true ∧ un > 2 ^ 63 then (-(2 ^ 63), some (Error.other "value out of range"))
      else (if neg then -(un : Int) else (un : Int), none)

end strconv

/-- Go `utils.ReadIDParam`. -/
def utils.ReadIDParam (r : Request) : Int × Option Error :=
  let idParam := r.idParam
  if idParam = "" then (0, some (Error.other "invalid id parameter"))
  else
    match strconv.ParseInt idParam with
    | (_, some _) => (0, some (Error.other "invalid id parameter type"))
    | (id, none) => (id, none)

/-! ## internal/models/workout.go, workout_entry.go -/

/-- Go `models.WorkoutEntry`; the `*float64` weight is carried as the bits of
the number, no arithmetic is done on it. -/
structure WorkoutEntry where
  ID : Int
  WorkoutID : Int
  ExerciseName : String
  Sets : Int
  Reps : Option Int
  DurationSeconds : Option Int
  Weight : Option UInt64
  Notes : String
  OrderIndex : Int
  CreatedAt : Int
  UpdatedAt : Int
deriving DecidableEq, Repr

/-- Go `models.Workout`. -/
structure Workout where
  ID : Int
  UserID : Int
  Title : String
  Description : String
  DurationMinutes : Int
  CaloriesBurned : Int
  CreatedAt : Int
  UpdatedAt : Int
  Entries : List WorkoutEntry
deriving DecidableEq, Repr

/-! ## internal/store/workout_store.go: the queries -/

/-- A row of the table `workouts`, with the columns the statements name. -/
structure WorkoutRow where
  id : Int
  user_id : Int
  title : String
  description : String
  duration_minutes : Int
  calories_burned : Int
  created_at : Int
  updated_at : Int
deriving DecidableEq, Repr

/-- The tables the workout store reads: `workouts` and `workout_entries`. -/
structure WorkoutTables where
  workouts : List WorkoutRow
  workout_entries : List WorkoutEntry
deriving DecidableEq, Repr

/-- Go `(*PostgresWorkoutStore).GetWorkoutByID`.  When the first query finds no
row, `Scan` reports `sql.ErrNoRows` and the function returns `nil, nil`.  The
columns `user_id`, `created_at` and `updated_at` are not selected, so these
fields keep their zero value. -/
def PostgresWorkoutStore.GetWorkoutByID (t : WorkoutTables) (id : Int) :
    Option Workout × Option Error :=
  match t.workouts.filter (fun w => decide (w.id = id)) with
  | [] => (none, none)
  | row :: _ =>
    let entries :=
      (t.workout_entries.filter (fun e => decide (e.WorkoutID = row.id))).insertionSort
        (fun a b => a.OrderIndex ≤ b.OrderIndex)
    (some
      { ID := row.id, UserID := 0, Title := row.title, Description := row.description,
        DurationMinutes := row.duration_minutes, CaloriesBurned := row.calories_burned,
        CreatedAt := 0, UpdatedAt := 0, Entries := entries }, none)

/-- Go `(*PostgresWorkoutStore).GetWorkoutOwner`. -/
def PostgresWorkoutStore.GetWorkoutOwner (t : WorkoutTables) (workoutID : Int) :
    Int × Option Error :=
  match t.workouts.filter (fun w => decide (w.id = workoutID)) with
  | [] => (0, some Error.ErrNoRows)
  | row :: _ => (row.user_id, none)

/-- Go `store.WorkoutStore`, as the handlers observe it: each method gives what
it returns (and, for the methods that take a `*models.Workout`, the workout
after the call). -/
structure WorkoutStore where
  CreateWorkout : Workout → Workout × Option Error
  GetWorkoutByID : Int → Option Workout × Option Error
  UpdateWorkoutByID : Workout → Workout × Option Error
  DeleteWorkoutByID : Int → Option Error
  GetWorkoutOwner : Int → Int × Option Error

/-! ## internal/api/workout_handler.go -/

/-- Go `WorkoutHandler` (the logger left out). -/
structure WorkoutHandler where
  workoutStore : WorkoutStore

/-- The anonymous struct `updateWorkoutRequest` of `HandleUpdateWorkoutByID`:
a nil pointer or nil slice is `none`. -/
structure updateWorkoutRequest where
  Title : Option String
  Description : Option String
  DurationMinutes : Option Int
  CaloriesBurned : Option Int
  Entries : Option (List WorkoutEntry)
deriving DecidableEq, Repr

/-- What a workout handler gives to `utils.WriteJSON` (or to `WriteHeader`):
the HTTP status, the envelope fields `status` and `message`, and the workout
under `data` (`none` for the JSON `null` and when there is no `data`). -/
structure WorkoutResponse where
  code : Nat
  status : String
  message : String
  workout : Option Workout
deriving DecidableEq, Repr

/-- A call of a method of the store that writes, with its argument. -/
inductive StoreCall where
  | CreateWorkout (workout : Workout)
  | UpdateWorkoutByID (workout : Option Workout)
  | DeleteWorkoutByID (id : Int)
deriving DecidableEq, Repr

/-- The observable effect of one run of a workout handler: the response
written (`none` when none was), whether the handler panicked, and the calls
made to the writing methods of the store. -/
structure WorkoutRun where
  response : Option WorkoutResponse
  panicked : Bool
  calls : List StoreCall
deriving DecidableEq, Repr

/-- A run that writes a failure envelope and returns. -/
def WorkoutRun.reply (code : Nat) (status message : String) : WorkoutRun :=
  { response := some { code := code, status := status, message := message, workout := none },
    panicked := false, calls := [] }

/-- A run that panics before anything is written. -/
def WorkoutRun.panic : WorkoutRun := { response := none, panicked := true, calls := [] }

/-- Go `(*WorkoutHandler).HandleGetWorkoutByID`.  `writeErr` is what the
`utils.WriteJSON` of the success response returns. -/
def WorkoutHandler.HandleGetWorkoutByID (wh : WorkoutHandler) (r : Request)
    (writeErr : Option Error) : WorkoutRun :=
  match utils.ReadIDParam r with
  | (_, some _) =>
    WorkoutRun.reply 400 "fail" "Invalid workout ID. Please provide a valid numeric identiifer."
  | (workoutID, none) =>
    match wh.workoutStore.GetWorkoutByID workoutID with
    | (_, some err) =>
      if errorsIs err Error.ErrNoRows then
        WorkoutRun.reply 404 "fail" "The requested workout could not be found."
      else
        WorkoutRun.reply 500 "error"
          "Failed to fetch the workout due to a server error. Please try again later."
    | (workout, none) =>
      let response : WorkoutResponse :=
        { code := 200, status := "success", message := "", workout := workout }
      match writeErr with
      | some _ => { response := some response, panicked := false, calls := [] }
      | none =>
        match workout with
        | none => { response := some response, panicked := true, calls := [] }
        | some _ => { response := some response, panicked := false, calls := [] }

/-- Go `(*WorkoutHandler).HandleCreateWorkout`.  `workout` and `decodeErr` are
what `json.NewDecoder(r.Body).Decode(workout)` leaves in `workout` and
returns. -/
def WorkoutHandler.HandleCreateWorkout (wh : WorkoutHandler) (r : Request) (workout : Workout)
    (decodeErr : Option Error) : WorkoutRun :=
  match decodeErr with
  | some _ =>
    WorkoutRun.reply 400 "fail"
      "Invalid request payload. Please ensure all fields are correctly provided."
  | none =>
    match GetUser r with
    | none => WorkoutRun.panic
    | some UserPtr.nil => WorkoutRun.panic
    | some UserPtr.AnonymousUser =>
      WorkoutRun.reply 400 "fail" "You must be logged in to create a new workout."
    | some (UserPtr.ptr currentUser) =>
      let workout := { workout with UserID := currentUser.ID }
      match wh.workoutStore.CreateWorkout workout with
      | (_, some _) =>
        { response := some
            { code := 500, status := "error",
              message :=
                "Failed to create the workout due to a server error. Please try again later.",
              workout := none },
          panicked := false, calls := [StoreCall.CreateWorkout workout] }
      | (created, none) =>
        { response := some
            { code := 201, status := "success", message := "", workout := some created },
          panicked := false, calls := [StoreCall.CreateWorkout workout] }

/-- One statement `if field != nil { existingWorkout.X = *field }`: the
pointer `existingWorkout` after it, or `none` for the nil pointer dereference
of an assignment through a nil `existingWorkout`. -/
def assignField {α : Type} (existingWorkout : Option Workout) (field : Option α)
    (set : Workout → α → Workout) : Option (Option Workout) :=
  match field with
  | none => some existingWorkout
  | some v =>
    match existingWorkout with
    | none => none
    | some w => some (some (set w v))

/-- The five conditional assignments of `HandleUpdateWorkoutByID`, in order. -/
def applyUpdate (existingWorkout : Option Workout) (req : updateWorkoutRequest) :
    Option (Option Workout) :=
  (assignField existingWorkout req.Title fun w v => { w with Title := v }).bind fun e1 =>
  (assignField e1 req.Description fun w v => { w with Description := v }).bind fun e2 =>
  (assignField e2 req.DurationMinutes fun w v => { w with DurationMinutes := v }).bind fun e3 =>
  (assignField e3 req.CaloriesBurned fun w v => { w with CaloriesBurned := v }).bind fun e4 =>
  assignField e4 req.Entries fun w v => { w with Entries := v }

/-- Go `(*WorkoutHandler).HandleUpdateWorkoutByID`.  `req` and `decodeErr` are
what `json.NewDecoder(r.Body).Decode(&updateWorkoutRequest)` leaves in the
struct and returns.  A nil `existingWorkout` handed to `UpdateWorkoutByID` is
dereferenced there. -/
def WorkoutHandler.HandleUpdateWorkoutByID (wh : WorkoutHandler) (r : Request)
    (req : updateWorkoutRequest) (decodeErr : Option Error) : WorkoutRun :=
  match utils.ReadIDParam r with
  | (_, some _) =>
    WorkoutRun.reply 400 "fail" "Invalid workout ID. Please provide a valid numeric identiifer."
  | (workoutID, none) =>
    match wh.workoutStore.GetWorkoutByID workoutID with
    | (_, some err) =>
      if errorsIs err Error.ErrNoRows then
        WorkoutRun.reply 404 "fail" "The workout you are trying to update could not be found."
      else
        WorkoutRun.reply 500 "error"
          "An unexpected error occurred while preparing to update. Please try again later."
    | (existingWorkout, none) =>
      match decodeErr with
      | some _ =>
        WorkoutRun.reply 400 "fail"
          "Invalid request payload. Please ensure all fields are correctly provided."
      | none =>
        match applyUpdate existingWorkout req with
        | none => WorkoutRun.panic
        | some existingWorkout =>
          match GetUser r with
          | none => WorkoutRun.panic
          | some UserPtr.nil => WorkoutRun.panic
          | some UserPtr.AnonymousUser =>
            WorkoutRun.reply 400 "fail" "You must be logged in to update a workout."
          | some (UserPtr.ptr currentUser) =>
            match wh.workoutStore.GetWorkoutOwner workoutID with
            | (_, some err) =>
              if errorsIs err Error.ErrNoRows then
                WorkoutRun.reply 404 "fail"
                  "The workout you are trying to update could not be found."
              else
                WorkoutRun.reply 500 "error"
                  "An unexpected error occurred while preparing to update. Please try again later."
            | (workoutOwner, none) =>
              if workoutOwner ≠ currentUser.ID then
                WorkoutRun.reply 403 "fail" "You are not authorized to update this workout."
              else
                match existingWorkout with
                | none =>
                  { response := none, panicked := true,
                    calls := [StoreCall.UpdateWorkoutByID none] }
                | some w =>
                  match wh.workoutStore.UpdateWorkoutByID w with
                  | (_, some _) =>
                    { response := some
                        { code := 500, status := "error",
                          message :=
                            "Failed to update the workout due to a server error. Please try again later.",
                          workout := none },
                      panicked := false, calls := [StoreCall.UpdateWorkoutByID (some w)] }
                  | (updated, none) =>
                    { response := some
                        { code := 200, status := "success", message := "",
                          workout := some updated },
                      panicked := false, calls := [StoreCall.UpdateWorkoutByID (some w)] }

/-- Go `(*WorkoutHandler).HandleDeleteWorkoutByID`. -/
def WorkoutHandler.HandleDeleteWorkoutByID (wh : WorkoutHandler) (r : Request) : WorkoutRun :=
  match utils.ReadIDParam r with
  | (_, some _) =>
    WorkoutRun.reply 400 "fail" "Invalid workout ID. Please provide a valid numeric identiifer."
  | (workoutID, none) =>
    match GetUser r with
    | none => WorkoutRun.panic
    | some UserPtr.nil => WorkoutRun.panic
    | some UserPtr.AnonymousUser =>
      WorkoutRun.reply 400 "fail" "You must be logged in to delete a workout."
    | some (UserPtr.ptr currentUser) =>
      match wh.workoutStore.GetWorkoutOwner workoutID with
      | (_, some err) =>
        if errorsIs err Error.ErrNoRows then
          WorkoutRun.reply 404 "fail" "The workout you are trying to delete could not be found."
        else
          WorkoutRun.reply 500 "error"
            "An unexpected error occurred while preparing to delete. Please try again later."
      | (workoutOwner, none) =>
        if workoutOwner ≠ currentUser.ID then
          WorkoutRun.reply 403 "fail" "You are not authorized to delete this workout."
        else
          match wh.workoutStore.DeleteWorkoutByID workoutID with
          | some err =>
            if err = Error.ErrNoRows then
              { response := some
                  { code := 404, status := "fail",
                    message := "The workout you are tyring to delete could not be found.",
                    workout := none },
                panicked := false, calls := [StoreCall.DeleteWorkoutByID workoutID] }
            else
              { response := some
                  { code := 500, status := "error",
                    message :=
                      "Failed to delete the workout due to a server error. Please try again later.",
                    workout := none },
                panicked := false, calls := [StoreCall.DeleteWorkoutByID workoutID] }
          | none =>
            { response := some { code := 204, status := "", message := "", workout := none },
              panicked := false, calls := [StoreCall.DeleteWorkoutByID workoutID] }

/-! ## Concrete inputs -/

/-- A working reader whose stream counts 0, 1, 2, ... -/
def rng0 : RandReader := { fail := none, stream := fun i => UInt8.ofNat i }

/-- A reader that fails. -/
def rngDown : RandReader := { fail := some (Error.other "entropy unavailable"), stream := fun _ => 0 }

/-- The zero value of `Password`. -/
def Password.zero : Password := { Plaintext := "", Hash := [] }

/-- A plaintext of 72 bytes. -/
def pw72 : String := String.mk (List.replicate 72 (Char.ofNat 97))

/-- A plaintext of 73 bytes, `pw72` followed by one more byte. -/
def pw73 : String := String.mk (List.replicate 73 (Char.ofNat 97))

/-- A stand-in for `sha256.Sum256` with which the definitions are evaluated on
concrete inputs (the first 32 bytes of the input, padded with zero bytes); the
theorems hold for every function in its place. -/
def sha256Model (b : List UInt8) : List UInt8 := (b ++ List.replicate 32 0).take 32

/-- The plaintext `GenerateToken` derives from the reader `rng0`. -/
def plain0 : String := "AAAQEAYEAUDAOCAJBIFQYDIOB4IBCEQTCQKRMFYYDENBWHA5DYPQ"

/-- The token `GenerateToken` returns at time 0 for user 7, a time-to-live of
24 hours and the scope "authentication", from the reader `rng0`. -/
def tok0 : Token :=
  { PlainText := plain0, Hash := sha256Model (bytesOf plain0), UserID := 7,
    Expiry := 24 * Hour, Scope := ScopeAuth }

/-- A working reader whose stream is 200, 237, 18, ...: byte `i` is
`37 * i + 200` modulo 256. -/
def rng1 : RandReader := { fail := none, stream := fun i => UInt8.ofNat (i * 37 + 200) }

/-- The unpadded base32 encoding of the first 32 bytes of `rng1`, as the Go
library and the Python library print it. -/
def plain1 : String := "ZDWREN24QGTMX4AVHJPYJKOO6MMD2YUHVTI7MG2AMWFK7VHZDZBQ"

/-- The token `GenerateToken` returns at time 0 for user 7, a time-to-live of
24 hours and the scope "authentication", from the reader `rng1`. -/
def tok1 : Token :=
  { PlainText := plain1, Hash := sha256Model (bytesOf plain1), UserID := 7,
    Expiry := 24 * Hour, Scope := ScopeAuth }

/-- The same token issued with a time-to-live of minus one second. -/
def tokPast : Token :=
  { PlainText := plain0, Hash := sha256Model (bytesOf plain0), UserID := 7,
    Expiry := -1000000000, Scope := ScopeAuth }

/-- The row of user 7. -/
def row7 : UserRow :=
  { id := 7, username := "user7", email := "user7@example.com", password_hash := [],
    bio := "", created_at := 0, updated_at := 0 }

/-- The row of user 9. -/
def row9 : UserRow :=
  { id := 9, username := "user9", email := "user9@example.com", password_hash := [],
    bio := "", created_at := 0, updated_at := 0 }

/-- A database with the users 7 and 9 and no token. -/
def db0 : DB := { users := [row7, row9], tokens := [] }

/-- User 7 as the user store returns it, with the hash of "password1234". -/
def user7 : User :=
  { row7.scan with
    PasswordHash :=
      { Plaintext := "",
        Hash := (Password.Set Bcrypt.model rng0 Password.zero "password1234").1.Hash } }

/-- A login handler over a user store that knows user 7 only and a token store
that is `PostgresTokenStore` on `db0` at time 0. -/
def th0 : TokenHandler :=
  { tokenStore :=
      { CreateNewToken := fun userID ttl scope =>
          (PostgresTokenStore.CreateNewToken sha256Model 0 rng0 none db0 userID ttl scope).2 },
    userStore :=
      { GetUserByUsername := fun username =>
          if username = "user7" then (some user7, none) else (none, some Error.ErrNoRows),
        GetUserByToken := fun scope plaintextToken =>
          PostgresUserStore.GetUserByToken sha256Model 0 db0 scope plaintextToken } }

/-- A user middleware over the user store of `th0`. -/
def um0 : UserMiddleware := { UserStore := th0.userStore }

/-- A user middleware whose store resolves the token `plain0` to user 7. -/
def um7 : UserMiddleware :=
  { UserStore :=
      { GetUserByUsername := th0.userStore.GetUserByUsername,
        GetUserByToken := fun scope plaintextToken =>
          PostgresUserStore.GetUserByToken sha256Model 0 { db0 with tokens := [tok0.row] }
            scope plaintextToken } }

/-- A user middleware over `PostgresUserStore` on the database `db` at the time
`now`. -/
def umOf (now : Int) (db : DB) : UserMiddleware :=
  { UserStore :=
      { GetUserByUsername := fun _ => (none, some Error.ErrNoRows),
        GetUserByToken := fun scope plaintextToken =>
          PostgresUserStore.GetUserByToken sha256Model now db scope plaintextToken } }

/-- A request with the given `Authorization` header and nothing else. -/
def reqAuth (authorization : String) : Request :=
  { Authorization := authorization, idParam := "", user := none }

/-- A workout with ID 1 that user 9 owns. -/
def workoutRow1 : WorkoutRow :=
  { id := 1, user_id := 9, title := "Leg day", description := "", duration_minutes := 45,
    calories_burned := 300, created_at := 0, updated_at := 0 }

/-- The workout tables with that one workout and no entry. -/
def tables0 : WorkoutTables := { workouts := [workoutRow1], workout_entries := [] }

/-- A workout handler over a store that answers the two queries as
`PostgresWorkoutStore` does on the tables `t`, and whose writes succeed and
leave the workout as given. -/
def whOf (t : WorkoutTables) : WorkoutHandler :=
  { workoutStore :=
      { CreateWorkout := fun workout => (workout, none),
        GetWorkoutByID := PostgresWorkoutStore.GetWorkoutByID t,
        UpdateWorkoutByID := fun workout => (workout, none),
        DeleteWorkoutByID := fun _ => none,
        GetWorkoutOwner := PostgresWorkoutStore.GetWorkoutOwner t } }

/-- Workout 1 as `GetWorkoutByID` returns it. -/
def workout1 : Workout :=
  { ID := 1, UserID := 0, Title := "Leg day", Description := "", DurationMinutes := 45,
    CaloriesBurned := 300, CreatedAt := 0, UpdatedAt := 0, Entries := [] }

/-- User 3. -/
def user3 : User :=
  { ID := 3, Username := "user3", Email := "user3@example.com",
    PasswordHash := { Plaintext := "", Hash := [] }, Bio := "", CreatedAt := 0, UpdatedAt := 0 }

/-- User 9, the owner of workout 1. -/
def user9 : User := row9.scan

/-- A request for the workout with the given `id` parameter, with the identity
the authentication gate attached. -/
def reqWorkout (idParam : String) (user : UserPtr) : Request :=
  { Authorization := "", idParam := idParam, user := some user }

/-- An update that sets no field. -/
def updateNothing : updateWorkoutRequest :=
  { Title := none, Description := none, DurationMinutes := none, CaloriesBurned := none,
    Entries := none }

/-- An update that sets the title. -/
def updateTitle : updateWorkoutRequest := { updateNothing with Title := some "Push day" }

/-- A decoded body for a new workout that names user 9 as its owner. -/
def newWorkout : Workout :=
  { ID := 0, UserID := 9, Title := "Run", Description := "", DurationMinutes := 30,
    CaloriesBurned := 250, CreatedAt := 0, UpdatedAt := 0, Entries := [] }

/-! # Theorems -/

/-! ## Facts about the credential code -/

theorem RandReader.Read_ok (r : RandReader) (b : List UInt8) (h : r.fail = none) :
    r.Read b = ((List.range b.length).map r.stream, none) := by
  simp [RandReader.Read, h]

theorem RandReader.Read_fail (r : RandReader) (b : List UInt8) (err : Error)
    (h : r.fail = some err) : r.Read b = (b, some err) := by
  simp [RandReader.Read, h]

theorem RandReader.salt_length (r : RandReader) : r.salt.length = 16 := by
  simp [RandReader.salt]

/-- The concrete instance satisfies the package contract. -/
theorem Bcrypt.model_lawful : Bcrypt.model.Lawful where
  decode_encode := by
    intro password cost salt h4 h31 hs
    have hc : (UInt8.ofNat cost).toNat = cost := by
      simp only [UInt8.ofNat, UInt8.toNat, Fin.ofNat]
      show cost % 256 = cost
      omega
    have hlen : ¬ (salt.length + min 72 (password.length + 72) + 1 < 59) := by omega
    simp [Bcrypt.model, hs, hc, hlen]
  decode_short := by
    intro h hh
    simp [Bcrypt.model, hh]
  digest_take := by
    intro password cost salt
    simp only [Bcrypt.model]
    rcases Nat.lt_or_ge password.length 72 with h | h
    · rw [List.take_of_length_le (Nat.le_of_lt h)]
    · rw [List.take_append_of_le_length h, List.take_append_of_le_length (by simp [h]),
        List.take_take]
      simp

/-- What a successful `Set` leaves in the receiver: the password fits in 72
bytes, the reader worked, and the stored hash is the serialisation of the
digest of the password under cost 13 and the salt drawn. -/
theorem Password.Set_ok (B : Bcrypt) (rng : RandReader) (p0 : Password) (pw : String)
    (h : (Password.Set B rng p0 pw).2 = none) :
    (bytesOf pw).length ≤ 72 ∧ rng.fail = none ∧
      (Password.Set B rng p0 pw).1
        = { Plaintext := pw, Hash := B.encode 13 rng.salt (B.digest (bytesOf pw) 13 rng.salt) } := by
  unfold Password.Set Bcrypt.GenerateFromPassword RandReader.Read at *
  by_cases hl : (bytesOf pw).length > 72
  · simp [hl] at h
  · cases hf : rng.fail with
    | some err => simp [hl, hf] at h
    | none => simp [hl, hf, RandReader.salt]; omega

/-- When `Set` fails the receiver is left as it was. -/
theorem Password.Set_error (B : Bcrypt) (rng : RandReader) (p0 : Password) (pw : String)
    (err : Error) (h : (Password.Set B rng p0 pw).2 = some err) :
    (Password.Set B rng p0 pw).1 = p0 := by
  unfold Password.Set Bcrypt.GenerateFromPassword RandReader.Read at *
  by_cases hl : (bytesOf pw).length > 72
  · simp [hl]
  · cases hf : rng.fail with
    | some e => simp [hl, hf]
    | none => simp [hl, hf] at h

/-- A password longer than 72 bytes is refused by `Set`, whatever the package
instance. -/
theorem Password.Set_too_long (B : Bcrypt) (rng : RandReader) (p0 : Password) (pw : String)
    (h : 72 < (bytesOf pw).length) :
    Password.Set B rng p0 pw = (p0, some Error.ErrPasswordTooLong) := by
  simp [Password.Set, Bcrypt.GenerateFromPassword, h]

/-- On a `Password` that holds no hash `Match` reports `ErrHashTooShort`,
whatever the package instance. -/
theorem Password.Match_zero (B : Bcrypt) (hB : B.Lawful) (pw : String) :
    Password.Match B Password.zero pw = (false, some Error.ErrHashTooShort) := by
  have hd : B.decode [] = .error Error.ErrHashTooShort := hB.decode_short [] (by decide)
  simp [Password.Match, Password.zero, Bcrypt.CompareHashAndPassword, hd, errorsIs]

/-- Comparing a candidate with the hash that `GenerateFromPassword` serialised
for a password: the outcome is decided by the two digests. -/
theorem Bcrypt.Compare_generated (B : Bcrypt) (hB : B.Lawful) (salt : List UInt8)
    (hs : salt.length = 16) (password candidate : List UInt8) :
    B.CompareHashAndPassword (B.encode 13 salt (B.digest password 13 salt)) candidate
      = if B.digest candidate 13 salt = B.digest password 13 salt then none
        else some Error.ErrMismatchedHashAndPassword := by
  unfold Bcrypt.CompareHashAndPassword
  rw [hB.decode_encode password 13 salt (by decide) (by decide) hs]
  simp only
  by_cases hd : B.digest candidate 13 salt = B.digest password 13 salt
  · simp [hd]
  · have hne : B.encode 13 salt (B.digest candidate 13 salt)
        ≠ B.encode 13 salt (B.digest password 13 salt) := by
      intro he
      have h1 := hB.decode_encode candidate 13 salt (by decide) (by decide) hs
      have h2 := hB.decode_encode password 13 salt (by decide) (by decide) hs
      rw [he, h2] at h1
      injection h1 with h1
      injection h1 with _ h1
      injection h1 with _ h1
      exact hd h1.symm
    simp [hd, hne]

/-! ## C1, C2, C9: Set and Match -/

/-- C1 (amended): for every plaintext p, when `Set(p)` returns without error,
`Match(p)` on the same value returns `(true, nil)`. -/
theorem Password.match_after_set (B : Bcrypt) (hB : B.Lawful) (rng : RandReader)
    (p0 : Password) (pw : String) (h : (Password.Set B rng p0 pw).2 = none) :
    Password.Match B (Password.Set B rng p0 pw).1 pw = (true, none) := by
  obtain ⟨_, _, hset⟩ := Password.Set_ok B rng p0 pw h
  rw [hset]
  simp [Password.Match, Bcrypt.Compare_generated B hB rng.salt rng.salt_length]

/-- Witness of C1: the scenario of the specification, "password1234". -/
theorem Password.match_after_set_witness :
    (Password.Set Bcrypt.model rng0 Password.zero "password1234").2 = none ∧
    Password.Match Bcrypt.model
      (Password.Set Bcrypt.model rng0 Password.zero "password1234").1 "password1234"
      = (true, none) :=
  ⟨by decide,
   Password.match_after_set Bcrypt.model Bcrypt.model_lawful rng0 Password.zero
     "password1234" (by decide)⟩

/-- C1 as stated fails: `Set` of a 73-byte plaintext on a fresh `Password`
returns `ErrPasswordTooLong` and stores nothing, and the `Match` that follows
returns `(false, ErrHashTooShort)`, not `(true, nil)`. -/
theorem Password.match_after_failed_set :
    Password.Set Bcrypt.model rng0 Password.zero pw73
      = (Password.zero, some Error.ErrPasswordTooLong) ∧
    Password.Match Bcrypt.model (Password.Set Bcrypt.model rng0 Password.zero pw73).1 pw73
      = (false, some Error.ErrHashTooShort) := by
  decide

/-- C2 (amended): after `Set(p1)` succeeds, `Match(p2)` returns `(false, nil)`
exactly when the bcrypt digest of p2 under the stored cost and salt differs
from that of p1 and `(true, nil)` exactly when the two digests are equal, and
it returns `(true, nil)` for every p2 that agrees with p1 on the first 72
bytes. -/
theorem Password.match_other_after_set (B : Bcrypt) (hB : B.Lawful) (rng : RandReader)
    (p0 : Password) (p1 p2 : String) (h : (Password.Set B rng p0 p1).2 = none) :
    (Password.Match B (Password.Set B rng p0 p1).1 p2 = (false, none) ↔
        B.digest (bytesOf p2) 13 rng.salt ≠ B.digest (bytesOf p1) 13 rng.salt) ∧
    (Password.Match B (Password.Set B rng p0 p1).1 p2 = (true, none) ↔
        B.digest (bytesOf p2) 13 rng.salt = B.digest (bytesOf p1) 13 rng.salt) ∧
    ((bytesOf p2).take 72 = (bytesOf p1).take 72 →
        Password.Match B (Password.Set B rng p0 p1).1 p2 = (true, none)) := by
  obtain ⟨_, _, hset⟩ := Password.Set_ok B rng p0 p1 h
  rw [hset]
  have hc := Bcrypt.Compare_generated B hB rng.salt rng.salt_length (bytesOf p1) (bytesOf p2)
  refine ⟨?_, ?_, ?_⟩
  · by_cases hd : B.digest (bytesOf p2) 13 rng.salt = B.digest (bytesOf p1) 13 rng.salt
    · simp [Password.Match, hc, hd]
    · simp [Password.Match, hc, hd, errorsIs]
  · by_cases hd : B.digest (bytesOf p2) 13 rng.salt = B.digest (bytesOf p1) 13 rng.salt
    · simp [Password.Match, hc, hd]
    · simp [Password.Match, hc, hd, errorsIs]
  · intro ht
    have hd : B.digest (bytesOf p2) 13 rng.salt = B.digest (bytesOf p1) 13 rng.salt := by
      rw [hB.digest_take (bytesOf p2), hB.digest_take (bytesOf p1), ht]
    simp [Password.Match, hc, hd]

/-- Witness of C2: the scenario of the specification, "password1234" set and
"wrongpass12" presented. -/
theorem Password.match_other_after_set_witness :
    (Password.Set Bcrypt.model rng0 Password.zero "password1234").2 = none ∧
    ((Password.Match Bcrypt.model
        (Password.Set Bcrypt.model rng0 Password.zero "password1234").1 "wrongpass12"
        = (false, none) ↔
      Bcrypt.model.digest (bytesOf "wrongpass12") 13 rng0.salt
        ≠ Bcrypt.model.digest (bytesOf "password1234") 13 rng0.salt) ∧
     (Password.Match Bcrypt.model
        (Password.Set Bcrypt.model rng0 Password.zero "password1234").1 "wrongpass12"
        = (true, none) ↔
      Bcrypt.model.digest (bytesOf "wrongpass12") 13 rng0.salt
        = Bcrypt.model.digest (bytesOf "password1234") 13 rng0.salt) ∧
     ((bytesOf "wrongpass12").take 72 = (bytesOf "password1234").take 72 →
      Password.Match Bcrypt.model
        (Password.Set Bcrypt.model rng0 Password.zero "password1234").1 "wrongpass12"
        = (true, none))) :=
  ⟨by decide,
   Password.match_other_after_set Bcrypt.model Bcrypt.model_lawful rng0 Password.zero
     "password1234" "wrongpass12" (by decide)⟩

/-- C2 as stated fails: the 72-byte plaintext `pw72` and the 73-byte plaintext
`pw73` are different, `Set(pw72)` succeeds, and `Match(pw73)` returns
`(true, nil)`. -/
theorem Password.match_longer_plaintext :
    pw72 ≠ pw73 ∧
    (Password.Set Bcrypt.model rng0 Password.zero pw72).2 = none ∧
    Password.Match Bcrypt.model (Password.Set Bcrypt.model rng0 Password.zero pw72).1 pw73
      = (true, none) := by
  decide

/-- C9: `Match` returns `(false, nil)` exactly when the comparison reports
`ErrMismatchedHashAndPassword`, `(true, nil)` exactly when the comparison
succeeds, `(false, err)` with that error for every other comparison failure,
and never `true` together with an error. -/
theorem Password.match_outcome (B : Bcrypt) (p : Password) (candidate : String) :
    (Password.Match B p candidate = (false, none) ↔
      B.CompareHashAndPassword p.Hash (bytesOf candidate)
        = some Error.ErrMismatchedHashAndPassword) ∧
    (Password.Match B p candidate = (true, none) ↔
      B.CompareHashAndPassword p.Hash (bytesOf candidate) = none) ∧
    (∀ err, B.CompareHashAndPassword p.Hash (bytesOf candidate) = some err →
      err ≠ Error.ErrMismatchedHashAndPassword →
      Password.Match B p candidate = (false, some err)) ∧
    (∀ err, Password.Match B p candidate ≠ (true, some err)) := by
  unfold Password.Match
  cases hc : B.CompareHashAndPassword p.Hash (bytesOf candidate) with
  | none => simp
  | some e =>
    by_cases he : e = Error.ErrMismatchedHashAndPassword
    · simp [errorsIs, he]
    · simp [errorsIs, he]

/-! ## Facts about base32 and token generation -/

theorem base32.encodeChar_mem (v : Nat) : base32.encodeChar v ∈ base32.encodeStd := by
  have hlt : v &&& 0x1F < base32.encodeStd.length := by
    have h1 : v &&& 0x1F ≤ 0x1F := Nat.and_le_right
    have h2 : base32.encodeStd.length = 32 := by decide
    omega
  unfold base32.encodeChar
  rw [List.getD_eq_getElem _ _ hlt]
  exact List.getElem_mem hlt

theorem base32.encodeRemain_mem (l : List UInt8) :
    ∀ c ∈ base32.encodeRemain l, c ∈ base32.encodeStd := by
  unfold base32.encodeRemain
  split <;> simp [base32.encodeChar_mem]

theorem base32.encodeQuantum_mem (b0 b1 b2 b3 b4 : UInt8) :
    ∀ c ∈ base32.encodeQuantum b0 b1 b2 b3 b4, c ∈ base32.encodeStd := by
  simp [base32.encodeQuantum, base32.encodeChar_mem]

/-- Every character of an unpadded encoding is a letter of the alphabet. -/
theorem base32.Encode_mem : ∀ (l : List UInt8), ∀ c ∈ base32.Encode none l, c ∈ base32.encodeStd
  | b0 :: b1 :: b2 :: b3 :: b4 :: rest => by
    intro c hc
    simp only [base32.Encode, List.mem_append] at hc
    rcases hc with hc | hc
    · exact base32.encodeQuantum_mem _ _ _ _ _ c hc
    · exact base32.Encode_mem rest c hc
  | [] => by simp [base32.Encode]
  | [b0] => by simpa [base32.Encode] using base32.encodeRemain_mem [b0]
  | [b0, b1] => by simpa [base32.Encode] using base32.encodeRemain_mem [b0, b1]
  | [b0, b1, b2] => by simpa [base32.Encode] using base32.encodeRemain_mem [b0, b1, b2]
  | [b0, b1, b2, b3] => by
    simpa [base32.Encode] using base32.encodeRemain_mem [b0, b1, b2, b3]

/-- The length of an unpadded encoding, Go `EncodedLen` for `NoPadding`. -/
theorem base32.Encode_length : ∀ (l : List UInt8),
    (base32.Encode none l).length = l.length / 5 * 8 + (l.length % 5 * 8 + 4) / 5
  | b0 :: b1 :: b2 :: b3 :: b4 :: rest => by
    have ih := base32.Encode_length rest
    have h8 : (base32.encodeQuantum b0 b1 b2 b3 b4).length = 8 := rfl
    simp only [base32.Encode, List.length_append, ih, List.length_cons, h8]
    omega
  | [] => by simp [base32.Encode]
  | [_] => by simp [base32.Encode, base32.encodeRemain]
  | [_, _] => by simp [base32.Encode, base32.encodeRemain]
  | [_, _, _] => by simp [base32.Encode, base32.encodeRemain]
  | [_, _, _, _] => by simp [base32.Encode, base32.encodeRemain]

/-- The letters of the alphabet are the capitals A to Z and the digits 2 to 7;
the padding character is not among them. -/
theorem base32.encodeStd_chars :
    ∀ c ∈ base32.encodeStd,
      (('A' ≤ c ∧ c ≤ 'Z') ∨ ('2' ≤ c ∧ c ≤ '7')) ∧ c ≠ '=' := by
  decide

/-- The outcome of `GenerateToken`: an error and no token when the reader
fails, and otherwise the token built from 32 bytes of the reader. -/
theorem GenerateToken_cases (sha256 : List UInt8 → List UInt8) (now : Int) (rng : RandReader)
    (userID ttl : Int) (scope : String) :
    (∃ err, rng.fail = some err ∧
      GenerateToken sha256 now rng userID ttl scope = (none, some err)) ∨
    (rng.fail = none ∧
      GenerateToken sha256 now rng userID ttl scope =
        (some
          { PlainText := base32.EncodeToString none ((List.range 32).map rng.stream),
            Hash := sha256 (bytesOf
              (base32.EncodeToString none ((List.range 32).map rng.stream))),
            UserID := userID, Expiry := now + ttl, Scope := scope }, none)) := by
  cases hf : rng.fail with
  | some err =>
    left
    exact ⟨err, rfl, by simp [GenerateToken, RandReader.Read, hf]⟩
  | none =>
    right
    exact ⟨rfl, by simp [GenerateToken, RandReader.Read, hf]⟩

/-- A token returned by `GenerateToken` is the one built from the reader. -/
theorem GenerateToken_some (sha256 : List UInt8 → List UInt8) (now : Int) (rng : RandReader)
    (userID ttl : Int) (scope : String) (tok : Token)
    (h : (GenerateToken sha256 now rng userID ttl scope).1 = some tok) :
    rng.fail = none ∧
    GenerateToken sha256 now rng userID ttl scope = (some tok, none) ∧
    tok = { PlainText := base32.EncodeToString none ((List.range 32).map rng.stream),
            Hash := sha256 (bytesOf
              (base32.EncodeToString none ((List.range 32).map rng.stream))),
            UserID := userID, Expiry := now + ttl, Scope := scope } := by
  rcases GenerateToken_cases sha256 now rng userID ttl scope with ⟨err, _, hg⟩ | ⟨hf, hg⟩
  · rw [hg] at h
    simp at h
  · rw [hg] at h
    simp only [Option.some.injEq] at h
    exact ⟨hf, by rw [hg, h], h.symm⟩

/-! ## base32: the encoder of the library against RFC 4648 -/

theorem base32.or_eq_add (i a k b : Nat) (ha : a = 2 ^ i * k) (hb : b < 2 ^ i) :
    a ||| b = a + b := by
  subst ha
  exact (Nat.mul_add_lt_is_or hb k).symm

theorem base32.toNat_lt (b : UInt8) : b.toNat < 256 := b.val.isLt

/-- The table of the library is table 3 of the RFC. -/
theorem base32.encodeChar_eq (v : Nat) : base32.encodeChar v = base32.rfcChar (v % 32) := by
  have hm : v &&& 0x1F = v % 32 := Nat.and_pow_two_sub_one_eq_mod v 5
  have ht : ∀ i : Fin 32,
      base32.encodeStd.getD i.val (Char.ofNat 65) = base32.rfcChar i.val := by decide
  unfold base32.encodeChar
  rw [hm]
  exact ht ⟨v % 32, Nat.mod_lt _ (by decide)⟩

/-- A full quantum of the library is the RFC encoding of its five bytes. -/
theorem base32.encodeQuantum_eq (b0 b1 b2 b3 b4 : UInt8) :
    base32.encodeQuantum b0 b1 b2 b3 b4 = base32.rfcGroup [b0, b1, b2, b3, b4] := by
  have h0 := base32.toNat_lt b0
  have h1 := base32.toNat_lt b1
  have h2 := base32.toNat_lt b2
  have h3 := base32.toNat_lt b3
  have h4 := base32.toNat_lt b4
  have e1 : (b0.toNat <<< 24) ||| (b1.toNat <<< 16) = b0.toNat * 2 ^ 24 + b1.toNat * 2 ^ 16 := by
    rw [Nat.shiftLeft_eq, Nat.shiftLeft_eq]
    exact base32.or_eq_add 24 _ b0.toNat _ (by omega) (by omega)
  have e2 : (b0.toNat <<< 24) ||| (b1.toNat <<< 16) ||| (b2.toNat <<< 8)
      = b0.toNat * 2 ^ 24 + b1.toNat * 2 ^ 16 + b2.toNat * 2 ^ 8 := by
    rw [e1, Nat.shiftLeft_eq]
    exact base32.or_eq_add 16 _ (b0.toNat * 2 ^ 8 + b1.toNat) _ (by omega) (by omega)
  have e3 : (b0.toNat <<< 24) ||| (b1.toNat <<< 16) ||| (b2.toNat <<< 8) ||| b3.toNat
      = b0.toNat * 2 ^ 24 + b1.toNat * 2 ^ 16 + b2.toNat * 2 ^ 8 + b3.toNat := by
    rw [e2]
    exact base32.or_eq_add 8 _ (b0.toNat * 2 ^ 16 + b1.toNat * 2 ^ 8 + b2.toNat) _
      (by omega) (by omega)
  have e4 : ((b0.toNat * 2 ^ 24 + b1.toNat * 2 ^ 16 + b2.toNat * 2 ^ 8 + b3.toNat) <<< 8)
      ||| b4.toNat
      = (b0.toNat * 2 ^ 24 + b1.toNat * 2 ^ 16 + b2.toNat * 2 ^ 8 + b3.toNat) * 2 ^ 8
        + b4.toNat := by
    rw [Nat.shiftLeft_eq]
    exact base32.or_eq_add 8 _
      (b0.toNat * 2 ^ 24 + b1.toNat * 2 ^ 16 + b2.toNat * 2 ^ 8 + b3.toNat) _
      (by omega) (by omega)
  simp only [base32.encodeQuantum, e3, e4, base32.encodeChar_eq, Nat.shiftRight_eq_div_pow,
    base32.rfcGroup, base32.groupValue, List.foldl, List.length_cons, List.length_nil]
  simp only [List.range, List.range.loop, List.map]
  generalize b0.toNat = x0 at *
  generalize b1.toNat = x1 at *
  generalize b2.toNat = x2 at *
  generalize b3.toNat = x3 at *
  generalize b4.toNat = x4 at *
  clear e1 e2 e3 e4
  norm_num
  refine ⟨congrArg _ ?_, congrArg _ ?_, congrArg _ ?_, congrArg _ ?_, congrArg _ ?_,
    congrArg _ ?_, congrArg _ ?_, congrArg _ ?_⟩ <;> omega

theorem base32.or_eq_add_left (i a k b : Nat) (ha : a = 2 ^ i * k) (hb : b < 2 ^ i) :
    b ||| a = b + a := by
  rw [Nat.or_comm, base32.or_eq_add i a k b ha hb, Nat.add_comm]

/-- The final quantum of the library is the RFC encoding of its bytes. -/
theorem base32.encodeRemain_eq (remain : List UInt8) (hl : remain.length < 5) :
    base32.encodeRemain remain = base32.rfcGroup remain := by
  match remain, hl with
  | [], _ => rfl
  | [b0], _ =>
    have h0 := base32.toNat_lt b0
    simp only [base32.encodeRemain, base32.encodeChar_eq, Nat.shiftRight_eq_div_pow,
      Nat.shiftLeft_eq, base32.rfcGroup, base32.groupValue, List.foldl, List.length_cons,
      List.length_nil]
    simp only [List.range, List.range.loop, List.map]
    generalize b0.toNat = x0 at *
    norm_num
    refine ⟨congrArg _ ?_, congrArg _ ?_⟩ <;> omega
  | [b0, b1], _ =>
    have h0 := base32.toNat_lt b0
    have h1 := base32.toNat_lt b1
    have e1 : (b1.toNat * 2 ^ 16) ||| (b0.toNat * 2 ^ 24) = b1.toNat * 2 ^ 16 + b0.toNat * 2 ^ 24 := by
      exact base32.or_eq_add_left 24 _ b0.toNat _ (by omega) (by omega)
    simp only [base32.encodeRemain, Nat.shiftLeft_eq]
    simp only [e1, base32.encodeChar_eq, Nat.shiftRight_eq_div_pow,
      base32.rfcGroup, base32.groupValue, List.foldl, List.length_cons,
      List.length_nil]
    simp only [List.range, List.range.loop, List.map]
    generalize b0.toNat = x0 at *
    generalize b1.toNat = x1 at *
    clear e1
    norm_num
    refine ⟨congrArg _ ?_, congrArg _ ?_, congrArg _ ?_, congrArg _ ?_⟩ <;> omega
  | [b0, b1, b2], _ =>
    have h0 := base32.toNat_lt b0
    have h1 := base32.toNat_lt b1
    have h2 := base32.toNat_lt b2
    have e1 : (b2.toNat * 2 ^ 8) ||| (b1.toNat * 2 ^ 16) = b2.toNat * 2 ^ 8 + b1.toNat * 2 ^ 16 := by
      exact base32.or_eq_add_left 16 _ b1.toNat _ (by omega) (by omega)
    have e2 : (b2.toNat * 2 ^ 8 + b1.toNat * 2 ^ 16) ||| (b0.toNat * 2 ^ 24)
        = b2.toNat * 2 ^ 8 + b1.toNat * 2 ^ 16 + b0.toNat * 2 ^ 24 := by
      exact base32.or_eq_add_left 24 _ b0.toNat _ (by omega) (by omega)
    simp only [base32.encodeRemain, Nat.shiftLeft_eq]
    simp only [e2, e1, base32.encodeChar_eq, Nat.shiftRight_eq_div_pow,
      base32.rfcGroup, base32.groupValue, List.foldl, List.length_cons,
      List.length_nil]
    simp only [List.range, List.range.loop, List.map]
    generalize b0.toNat = x0 at *
    generalize b1.toNat = x1 at *
    generalize b2.toNat = x2 at *
    clear e1 e2
    norm_num
    refine ⟨congrArg _ ?_, congrArg _ ?_, congrArg _ ?_, congrArg _ ?_, congrArg _ ?_⟩ <;> omega
  | [b0, b1, b2, b3], _ =>
    have h0 := base32.toNat_lt b0
    have h1 := base32.toNat_lt b1
    have h2 := base32.toNat_lt b2
    have h3 := base32.toNat_lt b3
    have e0 : b3.toNat ||| (b2.toNat * 2 ^ 8) = b3.toNat + b2.toNat * 2 ^ 8 := by
      exact base32.or_eq_add_left 8 _ b2.toNat _ (by omega) (by omega)
    have e1 : (b3.toNat + b2.toNat * 2 ^ 8) ||| (b1.toNat * 2 ^ 16)
        = b3.toNat + b2.toNat * 2 ^ 8 + b1.toNat * 2 ^ 16 := by
      exact base32.or_eq_add_left 16 _ b1.toNat _ (by omega) (by omega)
    have e2 : (b3.toNat + b2.toNat * 2 ^ 8 + b1.toNat * 2 ^ 16) ||| (b0.toNat * 2 ^ 24)
        = b3.toNat + b2.toNat * 2 ^ 8 + b1.toNat * 2 ^ 16 + b0.toNat * 2 ^ 24 := by
      exact base32.or_eq_add_left 24 _ b0.toNat _ (by omega) (by omega)
    simp only [base32.encodeRemain, Nat.shiftLeft_eq]
    simp only [e2, e1, e0, base32.encodeChar_eq, Nat.shiftRight_eq_div_pow,
      base32.rfcGroup, base32.groupValue, List.foldl, List.length_cons,
      List.length_nil]
    simp only [List.range, List.range.loop, List.map]
    generalize b0.toNat = x0 at *
    generalize b1.toNat = x1 at *
    generalize b2.toNat = x2 at *
    generalize b3.toNat = x3 at *
    clear e0 e1 e2
    norm_num
    refine ⟨congrArg _ ?_, congrArg _ ?_, congrArg _ ?_, congrArg _ ?_, congrArg _ ?_,
      congrArg _ ?_, congrArg _ ?_⟩ <;> omega
  | _ :: _ :: _ :: _ :: _ :: _, h =>
    simp at h
    omega

/-- The unpadded encoder of the library computes the encoding of RFC 4648. -/
theorem base32.Encode_eq_rfc4648 : ∀ (src : List UInt8),
    base32.Encode none src = base32.rfc4648 src
  | b0 :: b1 :: b2 :: b3 :: b4 :: rest => by
    rw [base32.Encode, base32.rfc4648, base32.encodeQuantum_eq,
      base32.Encode_eq_rfc4648 rest]
  | [] => by simp [base32.Encode, base32.rfc4648, base32.rfcGroup]
  | [b0] => by
    rw [base32.Encode, base32.rfc4648]
    · exact base32.encodeRemain_eq [b0] (by simp)
    all_goals simp
  | [b0, b1] => by
    rw [base32.Encode, base32.rfc4648]
    · exact base32.encodeRemain_eq [b0, b1] (by simp)
    all_goals simp
  | [b0, b1, b2] => by
    rw [base32.Encode, base32.rfc4648]
    · exact base32.encodeRemain_eq [b0, b1, b2] (by simp)
    all_goals simp
  | [b0, b1, b2, b3] => by
    rw [base32.Encode, base32.rfc4648]
    · exact base32.encodeRemain_eq [b0, b1, b2, b3] (by simp)
    all_goals simp

/-- The test vectors of RFC 4648, section 10, with and without padding. -/
theorem base32.rfc4648_vectors :
    base32.EncodeToString (some '=') (bytesOf "") = "" ∧
    base32.EncodeToString (some '=') (bytesOf "f") = "MY======" ∧
    base32.EncodeToString (some '=') (bytesOf "fo") = "MZXQ====" ∧
    base32.EncodeToString (some '=') (bytesOf "foo") = "MZXW6===" ∧
    base32.EncodeToString (some '=') (bytesOf "foob") = "MZXW6YQ=" ∧
    base32.EncodeToString (some '=') (bytesOf "fooba") = "MZXW6YTB" ∧
    base32.EncodeToString (some '=') (bytesOf "foobar") = "MZXW6YTBOI======" ∧
    base32.EncodeToString none (bytesOf "f") = "MY" ∧
    base32.EncodeToString none (bytesOf "fo") = "MZXQ" ∧
    base32.EncodeToString none (bytesOf "foo") = "MZXW6" ∧
    base32.EncodeToString none (bytesOf "foob") = "MZXW6YQ" ∧
    base32.EncodeToString none (bytesOf "foobar") = "MZXW6YTBOI" ∧
    String.mk (base32.rfc4648 (bytesOf "foobar")) = "MZXW6YTBOI" := by
  decide

/-! ## C3, C7, C8: token generation -/

/-- C3: every token returned by `GenerateToken` has `Hash` equal to the
SHA-256 digest of the bytes of its `PlainText`; and a token is returned
whenever the randomness is available. -/
theorem GenerateToken_hash (sha256 : List UInt8 → List UInt8) (now : Int) (rng : RandReader)
    (userID ttl : Int) (scope : String) :
    (rng.fail = none → ∃ tok, GenerateToken sha256 now rng userID ttl scope = (some tok, none)) ∧
    (∀ tok, (GenerateToken sha256 now rng userID ttl scope).1 = some tok →
      tok.Hash = sha256 (bytesOf tok.PlainText)) := by
  constructor
  · intro hf
    rcases GenerateToken_cases sha256 now rng userID ttl scope with ⟨err, he, _⟩ | ⟨_, hg⟩
    · rw [hf] at he
      cases he
    · exact ⟨_, hg⟩
  · intro tok h
    obtain ⟨_, _, ht⟩ := GenerateToken_some sha256 now rng userID ttl scope tok h
    rw [ht]

/-- C7 (amended): a token returned by `GenerateToken` has `Expiry` equal to the
creation time plus the time-to-live, so the expiry is strictly after the
creation time exactly when the time-to-live is positive. -/
theorem GenerateToken_expiry (sha256 : List UInt8 → List UInt8) (now : Int) (rng : RandReader)
    (userID ttl : Int) (scope : String) (tok : Token)
    (h : (GenerateToken sha256 now rng userID ttl scope).1 = some tok) :
    tok.Expiry = now + ttl ∧ (now < tok.Expiry ↔ 0 < ttl) := by
  obtain ⟨_, _, ht⟩ := GenerateToken_some sha256 now rng userID ttl scope tok h
  rw [ht]
  constructor
  · rfl
  · show now < now + ttl ↔ 0 < ttl
    omega

/-- Witness of C7: the token issued at time 0 for 24 hours. -/
theorem GenerateToken_expiry_witness :
    (GenerateToken sha256Model 0 rng0 7 (24 * Hour) ScopeAuth).1 = some tok0 ∧
    (tok0.Expiry = 0 + 24 * Hour ∧ ((0 : Int) < tok0.Expiry ↔ 0 < 24 * Hour)) :=
  ⟨by decide, GenerateToken_expiry sha256Model 0 rng0 7 (24 * Hour) ScopeAuth tok0 (by decide)⟩

/-- C7 as stated fails: with a time-to-live of minus one second `GenerateToken`
returns a token whose expiry is before the creation time. -/
theorem GenerateToken_expiry_past :
    GenerateToken sha256Model 0 rng0 7 (-1000000000) ScopeAuth = (some tokPast, none) ∧
    ¬ (0 < tokPast.Expiry) := by
  decide

/-- C8: the `PlainText` of a token returned by `GenerateToken` is the unpadded
standard base32 encoding of the 32 bytes drawn from the reader: it is what the
encoder of the library returns for them, which is the encoding that RFC 4648
defines (the bits of the bytes cut into 5-bit groups, each translated by table
3); it has exactly 52 characters, each a capital letter A to Z or a digit 2 to
7, none of them the padding character. -/
theorem GenerateToken_plaintext (sha256 : List UInt8 → List UInt8) (now : Int)
    (rng : RandReader) (userID ttl : Int) (scope : String) (tok : Token)
    (h : (GenerateToken sha256 now rng userID ttl scope).1 = some tok) :
    tok.PlainText = base32.EncodeToString none ((rng.Read (List.replicate 32 0)).1) ∧
    ((rng.Read (List.replicate 32 0)).1).length = 32 ∧
    (rng.Read (List.replicate 32 0)).1 = (List.range 32).map rng.stream ∧
    tok.PlainText.data = base32.rfc4648 ((List.range 32).map rng.stream) ∧
    tok.PlainText.length = 52 ∧
    ∀ c ∈ tok.PlainText.data,
      (('A' ≤ c ∧ c ≤ 'Z') ∨ ('2' ≤ c ∧ c ≤ '7')) ∧ c ≠ '=' := by
  obtain ⟨hf, _, ht⟩ := GenerateToken_some sha256 now rng userID ttl scope tok h
  have hr : (rng.Read (List.replicate 32 0)).1 = (List.range 32).map rng.stream := by
    simp [RandReader.Read, hf]
  rw [ht, hr]
  refine ⟨rfl, by simp, rfl, ?_, ?_, ?_⟩
  · show base32.Encode none ((List.range 32).map rng.stream)
      = base32.rfc4648 ((List.range 32).map rng.stream)
    exact base32.Encode_eq_rfc4648 _
  · show (base32.Encode none ((List.range 32).map rng.stream)).length = 52
    rw [base32.Encode_length]
    simp
  · intro c hc
    exact base32.encodeStd_chars c (base32.Encode_mem _ c hc)

/-- Witness of C8: the token drawn from the reader `rng1`, whose plaintext is
the encoding the Go library prints for these 32 bytes. -/
theorem GenerateToken_plaintext_witness :
    (GenerateToken sha256Model 0 rng1 7 (24 * Hour) ScopeAuth).1 = some tok1 ∧
    tok1.PlainText = "ZDWREN24QGTMX4AVHJPYJKOO6MMD2YUHVTI7MG2AMWFK7VHZDZBQ" ∧
    (tok1.PlainText = base32.EncodeToString none ((rng1.Read (List.replicate 32 0)).1) ∧
     ((rng1.Read (List.replicate 32 0)).1).length = 32 ∧
     (rng1.Read (List.replicate 32 0)).1 = (List.range 32).map rng1.stream ∧
     tok1.PlainText.data = base32.rfc4648 ((List.range 32).map rng1.stream) ∧
     tok1.PlainText.length = 52 ∧
     ∀ c ∈ tok1.PlainText.data,
       (('A' ≤ c ∧ c ≤ 'Z') ∨ ('2' ≤ c ∧ c ≤ '7')) ∧ c ≠ '=') :=
  ⟨by decide, by decide,
   GenerateToken_plaintext sha256Model 0 rng1 7 (24 * Hour) ScopeAuth tok1 (by decide)⟩

/-! ## Facts about the stores -/

/-- The rows the query of `GetUserByToken` selects. -/
theorem DB.mem_selectUserByToken (db : DB) (hash : List UInt8) (scope : String) (now : Int)
    (r : UserRow) :
    r ∈ db.selectUserByToken hash scope now ↔
      r ∈ db.users ∧ ∃ t ∈ db.tokens,
        t.user_id = r.id ∧ t.hash = hash ∧ t.scope = scope ∧ now < t.expiry := by
  simp only [DB.selectUserByToken, List.mem_flatMap, List.mem_map, List.mem_filter,
    decide_eq_true_eq, gt_iff_lt]
  constructor
  · rintro ⟨u, hu, t, ⟨ht, hc⟩, rfl⟩
    exact ⟨hu, t, ht, hc⟩
  · rintro ⟨hu, t, ht, hc⟩
    exact ⟨r, hu, t, ⟨ht, hc⟩, rfl⟩

/-- The outcome of `GetUserByToken`: the scan of a selected row, or
`sql.ErrNoRows` when the query selects nothing. -/
theorem PostgresUserStore.GetUserByToken_cases (sha256 : List UInt8 → List UInt8) (now : Int)
    (db : DB) (scope plaintextToken : String) :
    (db.selectUserByToken (sha256 (bytesOf plaintextToken)) scope now = [] ∧
      PostgresUserStore.GetUserByToken sha256 now db scope plaintextToken
        = (none, some Error.ErrNoRows)) ∨
    (∃ r, r ∈ db.selectUserByToken (sha256 (bytesOf plaintextToken)) scope now ∧
      PostgresUserStore.GetUserByToken sha256 now db scope plaintextToken
        = (some r.scan, none)) := by
  cases hs : db.selectUserByToken (sha256 (bytesOf plaintextToken)) scope now with
  | nil =>
    left
    exact ⟨rfl, by simp [PostgresUserStore.GetUserByToken, hs]⟩
  | cons r rest =>
    right
    exact ⟨r, by simp, by simp [PostgresUserStore.GetUserByToken, hs]⟩

/-- The outcome of `CreateNewToken`, by the outcome of the generation and the
verdict of the database on the insert. -/
theorem PostgresTokenStore.CreateNewToken_cases (sha256 : List UInt8 → List UInt8) (now : Int)
    (rng : RandReader) (fault : Option Error) (db : DB) (userID ttl : Int) (scope : String) :
    (∃ err, GenerateToken sha256 now rng userID ttl scope = (none, some err) ∧
      PostgresTokenStore.CreateNewToken sha256 now rng fault db userID ttl scope
        = (db, none, some err)) ∨
    (∃ tok err, GenerateToken sha256 now rng userID ttl scope = (some tok, none) ∧
      fault = some err ∧
      PostgresTokenStore.CreateNewToken sha256 now rng fault db userID ttl scope
        = (db, none, some err)) ∨
    (∃ tok, GenerateToken sha256 now rng userID ttl scope = (some tok, none) ∧
      fault = none ∧
      PostgresTokenStore.CreateNewToken sha256 now rng fault db userID ttl scope
        = ({ db with tokens := db.tokens ++ [tok.row] }, some tok, none)) := by
  rcases GenerateToken_cases sha256 now rng userID ttl scope with ⟨err, _, hg⟩ | ⟨_, hg⟩
  · left
    exact ⟨err, hg, by simp [PostgresTokenStore.CreateNewToken, hg]⟩
  · right
    cases hf : fault with
    | some err =>
      left
      exact ⟨_, err, hg, rfl, by
        simp [PostgresTokenStore.CreateNewToken, hg, PostgresTokenStore.Insert]⟩
    | none =>
      right
      exact ⟨_, hg, rfl, by
        simp [PostgresTokenStore.CreateNewToken, hg, PostgresTokenStore.Insert]⟩

/-! ## C4, C5, C6: issuing and resolving tokens -/

/-- C5: `GetUserByToken(scope, plaintext)` returns a user only if the token
table holds a row whose hash is SHA-256(plaintext), whose scope is the
requested scope and whose expiry is strictly after the current time, and the
user returned is the one that row names; and it returns no user and
`sql.ErrNoRows` when no row passes all three tests: in particular when every
row with that hash has expired, when every row with that hash is stored under
another scope, and when no row has that hash. -/
theorem PostgresUserStore.GetUserByToken_spec (sha256 : List UInt8 → List UInt8) (now : Int)
    (db : DB) (scope plaintextToken : String) :
    (∀ user, (PostgresUserStore.GetUserByToken sha256 now db scope plaintextToken).1 = some user →
      (PostgresUserStore.GetUserByToken sha256 now db scope plaintextToken).2 = none ∧
      ∃ t ∈ db.tokens, t.hash = sha256 (bytesOf plaintextToken) ∧ t.scope = scope ∧
        now < t.expiry ∧ user.ID = t.user_id ∧
        ∃ r ∈ db.users, r.id = t.user_id ∧ user = r.scan) ∧
    ((∀ t ∈ db.tokens, ¬ (t.hash = sha256 (bytesOf plaintextToken) ∧ t.scope = scope ∧
        now < t.expiry)) →
      PostgresUserStore.GetUserByToken sha256 now db scope plaintextToken
        = (none, some Error.ErrNoRows)) ∧
    ((∀ t ∈ db.tokens, t.hash = sha256 (bytesOf plaintextToken) → t.expiry ≤ now) →
      PostgresUserStore.GetUserByToken sha256 now db scope plaintextToken
        = (none, some Error.ErrNoRows)) ∧
    ((∀ t ∈ db.tokens, t.hash = sha256 (bytesOf plaintextToken) → t.scope ≠ scope) →
      PostgresUserStore.GetUserByToken sha256 now db scope plaintextToken
        = (none, some Error.ErrNoRows)) ∧
    ((∀ t ∈ db.tokens, t.hash ≠ sha256 (bytesOf plaintextToken)) →
      PostgresUserStore.GetUserByToken sha256 now db scope plaintextToken
        = (none, some Error.ErrNoRows)) := by
  have hnone : (∀ t ∈ db.tokens, ¬ (t.hash = sha256 (bytesOf plaintextToken) ∧
      t.scope = scope ∧ now < t.expiry)) →
      PostgresUserStore.GetUserByToken sha256 now db scope plaintextToken
        = (none, some Error.ErrNoRows) := by
    intro hno
    rcases PostgresUserStore.GetUserByToken_cases sha256 now db scope plaintextToken with
      ⟨_, h⟩ | ⟨r, hr, _⟩
    · exact h
    · rw [DB.mem_selectUserByToken] at hr
      obtain ⟨_, t, ht, _, h2, h3, h4⟩ := hr
      exact absurd ⟨h2, h3, h4⟩ (hno t ht)
  refine ⟨?_, hnone, ?_, ?_, ?_⟩
  · intro user huser
    rcases PostgresUserStore.GetUserByToken_cases sha256 now db scope plaintextToken with
      ⟨_, h⟩ | ⟨r, hr, h⟩
    · rw [h] at huser
      simp at huser
    · rw [h] at huser ⊢
      simp only [Option.some.injEq] at huser
      rw [DB.mem_selectUserByToken] at hr
      obtain ⟨hru, t, ht, h1, h2, h3, h4⟩ := hr
      refine ⟨rfl, t, ht, h2, h3, h4, ?_, r, hru, h1.symm, huser.symm⟩
      rw [← huser, h1]
      rfl
  · intro hexp
    apply hnone
    intro t ht ⟨h1, _, h3⟩
    have := hexp t ht h1
    omega
  · intro hsc
    apply hnone
    intro t ht ⟨h1, h2, _⟩
    exact hsc t ht h1 h2
  · intro hh
    apply hnone
    intro t ht ⟨h1, _, _⟩
    exact hh t ht h1

/-- C6: when the generation or the insert fails `CreateNewToken` returns a nil
token together with the error and leaves the table as it was; and whenever it
returns a token, no error is returned with it, that token is the one
`GenerateToken` produced, `Insert` was given it and succeeded, and the table
after the call holds the row with its hash, user ID, expiry and scope. -/
theorem PostgresTokenStore.CreateNewToken_durable (sha256 : List UInt8 → List UInt8)
    (now : Int) (rng : RandReader) (fault : Option Error) (db : DB) (userID ttl : Int)
    (scope : String) :
    (∀ err, (GenerateToken sha256 now rng userID ttl scope).2 = some err →
      PostgresTokenStore.CreateNewToken sha256 now rng fault db userID ttl scope
        = (db, none, some err)) ∧
    (∀ tok err, GenerateToken sha256 now rng userID ttl scope = (some tok, none) →
      (PostgresTokenStore.Insert fault db tok).2 = some err →
      PostgresTokenStore.CreateNewToken sha256 now rng fault db userID ttl scope
        = (db, none, some err)) ∧
    (∀ tok, (PostgresTokenStore.CreateNewToken sha256 now rng fault db userID ttl scope).2.1
        = some tok →
      (PostgresTokenStore.CreateNewToken sha256 now rng fault db userID ttl scope).2.2 = none ∧
      GenerateToken sha256 now rng userID ttl scope = (some tok, none) ∧
      PostgresTokenStore.Insert fault db tok
        = ((PostgresTokenStore.CreateNewToken sha256 now rng fault db userID ttl scope).1,
            none) ∧
      ({ hash := tok.Hash, user_id := tok.UserID, expiry := tok.Expiry, scope := tok.Scope }
          : TokenRow)
        ∈ (PostgresTokenStore.CreateNewToken sha256 now rng fault db userID ttl scope).1.tokens) := by
  rcases PostgresTokenStore.CreateNewToken_cases sha256 now rng fault db userID ttl scope with
    ⟨e, hg, h⟩ | ⟨t, e, hg, hf, h⟩ | ⟨t, hg, hf, h⟩
  · rw [h, hg]
    refine ⟨?_, ?_, ?_⟩
    · intro err he
      simp only [Option.some.injEq] at he
      rw [he]
    · intro tok err hc
      simp at hc
    · intro tok hc
      simp at hc
  · rw [h, hg]
    refine ⟨?_, ?_, ?_⟩
    · intro err he
      simp at he
    · intro tok err hc hi
      simp only [Prod.mk.injEq, Option.some.injEq, and_true] at hc
      subst hc
      simp only [PostgresTokenStore.Insert, hf, Option.some.injEq] at hi
      rw [hi]
    · intro tok hc
      simp at hc
  · rw [h, hg]
    refine ⟨?_, ?_, ?_⟩
    · intro err he
      simp at he
    · intro tok err hc hi
      simp [PostgresTokenStore.Insert, hf] at hi
    · intro tok hc
      simp only [Option.some.injEq] at hc
      subst hc
      refine ⟨rfl, rfl, ?_, ?_⟩
      · simp [PostgresTokenStore.Insert, hf]
      · simp [Token.row]

/-! ## C10: the login handler -/

/-- C10: `HandleCreateToken` calls `CreateNewToken` exactly when the body was
decoded, the user lookup returned a user without error and `Match` returned
`(true, nil)`, and then once, for that user, 24 hours and the scope
"authentication"; when `Match` returns false the response is 401 and when it
returns an error the response is 404, in both cases without a token and
without any call to `CreateNewToken`. -/
theorem TokenHandler.HandleCreateToken_gate (B : Bcrypt) (th : TokenHandler)
    (req : createTokenRequest) (decodeErr : Option Error) :
    ((TokenHandler.HandleCreateToken B th req decodeErr).created ≠ [] ↔
      decodeErr = none ∧ ∃ user,
        th.userStore.GetUserByUsername req.Username = (some user, none) ∧
        user.PasswordHash.Match B req.Password = (true, none) ∧
        (TokenHandler.HandleCreateToken B th req decodeErr).created
          = [(user.ID, 24 * Hour, ScopeAuth)]) ∧
    (∀ user, decodeErr = none →
      th.userStore.GetUserByUsername req.Username = (some user, none) →
      user.PasswordHash.Match B req.Password = (false, none) →
      (TokenHandler.HandleCreateToken B th req decodeErr).created = [] ∧
      ∃ r, (TokenHandler.HandleCreateToken B th req decodeErr).response = some r ∧
        r.code = 401 ∧ r.auth_token = none) ∧
    (∀ user matched err, decodeErr = none →
      th.userStore.GetUserByUsername req.Username = (some user, none) →
      user.PasswordHash.Match B req.Password = (matched, some err) →
      (TokenHandler.HandleCreateToken B th req decodeErr).created = [] ∧
      ∃ r, (TokenHandler.HandleCreateToken B th req decodeErr).response = some r ∧
        r.code = 404 ∧ r.auth_token = none) := by
  cases decodeErr with
  | some e => simp [TokenHandler.HandleCreateToken]
  | none =>
    rcases hl : th.userStore.GetUserByUsername req.Username with ⟨u, e⟩
    rcases e with _ | e
    · rcases u with _ | user
      · simp [TokenHandler.HandleCreateToken, hl]
      · rcases hm : user.PasswordHash.Match B req.Password with ⟨b, e⟩
        have hrest : (Password.Match B user.PasswordHash req.Password).2 = none →
            ∀ (user1 : User),
              (∀ (err : Error), user = user1 →
                ¬ Password.Match B user1.PasswordHash req.Password = (false, some err)) ∧
              (∀ (err : Error), user = user1 →
                ¬ Password.Match B user1.PasswordHash req.Password = (true, some err)) := by
          intro h2 user1
          constructor <;>
          · intro err hu hx
            subst hu
            rw [hx] at h2
            simp at h2
        rcases e with _ | e
        · have h2 : (Password.Match B user.PasswordHash req.Password).2 = none := by rw [hm]
          rcases b with _ | _
          · simp [TokenHandler.HandleCreateToken, hl, hm]
            exact hrest h2
          · rcases hc : th.tokenStore.CreateNewToken user.ID (24 * Hour) ScopeAuth with ⟨t, e⟩
            rcases e with _ | e <;> rcases t with _ | t <;>
              simp [TokenHandler.HandleCreateToken, hl, hm, hc] <;>
              exact hrest h2
        · simp [TokenHandler.HandleCreateToken, hl, hm]
    · simp [TokenHandler.HandleCreateToken, hl]

/-! ## The scenarios of the specification, evaluated -/

/-- Scenario a: after `Set("password1234")`, `Match("password1234")` is true
and `Match("wrongpass12")` is false, both without error. -/
theorem scenario_set_match :
    Password.Match Bcrypt.model
      (Password.Set Bcrypt.model rng0 Password.zero "password1234").1 "password1234"
      = (true, none) ∧
    Password.Match Bcrypt.model
      (Password.Set Bcrypt.model rng0 Password.zero "password1234").1 "wrongpass12"
      = (false, none) := by
  decide

/-- Scenario d: a well-formed token value that was never issued does not
resolve, also while another token is live. -/
theorem scenario_never_issued :
    PostgresUserStore.GetUserByToken sha256Model 0 { db0 with tokens := [tok0.row] } ScopeAuth
      "77777777777777777777777777777777777777777777777777AA" = (none, some Error.ErrNoRows) := by
  decide

/-- A token of user 7 does not resolve under another scope, nor at the instant
of its expiry. -/
theorem scenario_scope_expiry :
    PostgresUserStore.GetUserByToken sha256Model 0 { db0 with tokens := [tok0.row] }
      "activation" tok0.PlainText = (none, some Error.ErrNoRows) ∧
    PostgresUserStore.GetUserByToken sha256Model (24 * Hour) { db0 with tokens := [tok0.row] }
      ScopeAuth tok0.PlainText = (none, some Error.ErrNoRows) ∧
    PostgresUserStore.GetUserByToken sha256Model (24 * Hour - 1) { db0 with tokens := [tok0.row] }
      ScopeAuth tok0.PlainText = (some row7.scan, none) := by
  decide

/-- The login handler on `th0`: the right password is answered 201 with the
token after one call to `CreateNewToken`; a wrong password is answered 401 and
an unknown user 404, both without a call. -/
theorem scenario_login :
    TokenHandler.HandleCreateToken Bcrypt.model th0
        { Username := "user7", Password := "password1234" } none
      = { response := some
            { code := 201, status := "success", message := "", auth_token := some tok0 },
          created := [(7, 24 * Hour, ScopeAuth)] } ∧
    (TokenHandler.HandleCreateToken Bcrypt.model th0
        { Username := "user7", Password := "wrongpass12" } none).response.map Response.code
      = some 401 ∧
    (TokenHandler.HandleCreateToken Bcrypt.model th0
        { Username := "user7", Password := "wrongpass12" } none).created = [] ∧
    (TokenHandler.HandleCreateToken Bcrypt.model th0
        { Username := "nobody", Password := "password1234" } none).response.map Response.code
      = some 404 ∧
    (TokenHandler.HandleCreateToken Bcrypt.model th0
        { Username := "nobody", Password := "password1234" } none).created = [] := by
  decide


/-! ## Facts about strings.Split and the Authorization header -/

theorem strings.splitChars_ne_nil (sep : Char) (l : List Char) :
    strings.splitChars sep l ≠ [] := by
  cases l with
  | nil => simp [strings.splitChars]
  | cons c cs =>
    simp only [strings.splitChars]
    split
    · simp
    · split <;> simp

/-- A list without the separator is a single piece. -/
theorem strings.splitChars_of_not_mem (sep : Char) (l : List Char) (h : sep ∉ l) :
    strings.splitChars sep l = [l] := by
  induction l with
  | nil => rfl
  | cons c cs ih =>
    simp only [List.mem_cons, not_or] at h
    have hc : c ≠ sep := fun e => h.1 e.symm
    simp [strings.splitChars, hc, ih h.2]

/-- The first piece ends at the first separator. -/
theorem strings.splitChars_append (sep : Char) (a b : List Char) (h : sep ∉ a) :
    strings.splitChars sep (a ++ sep :: b) = a :: strings.splitChars sep b := by
  induction a with
  | nil => simp [strings.splitChars]
  | cons c cs ih =>
    simp only [List.mem_cons, not_or] at h
    have hc : c ≠ sep := fun e => h.1 e.symm
    simp [strings.splitChars, hc, ih h.2]

/-- A single piece is the whole list, which has no separator. -/
theorem strings.splitChars_eq_singleton (sep : Char) (l p : List Char)
    (h : strings.splitChars sep l = [p]) : l = p ∧ sep ∉ l := by
  induction l generalizing p with
  | nil =>
    simp [strings.splitChars] at h
    simp [h]
  | cons c cs ih =>
    simp only [strings.splitChars] at h
    by_cases hc : c = sep
    · simp [hc, strings.splitChars_ne_nil] at h
    · simp only [hc, if_false] at h
      cases hs : strings.splitChars sep cs with
      | nil => exact absurd hs (strings.splitChars_ne_nil sep cs)
      | cons q qs =>
        rw [hs] at h
        simp only [List.cons.injEq] at h
        obtain ⟨hq, hqs⟩ := h
        subst hqs
        obtain ⟨h1, h2⟩ := ih q hs
        subst hq
        refine ⟨by rw [h1], ?_⟩
        simp only [List.mem_cons, not_or]
        exact ⟨fun e => hc e.symm, h2⟩

/-- Two pieces are the parts of the list before and after its only separator. -/
theorem strings.splitChars_eq_pair (sep : Char) (l p0 p1 : List Char)
    (h : strings.splitChars sep l = [p0, p1]) :
    l = p0 ++ sep :: p1 ∧ sep ∉ p0 ∧ sep ∉ p1 := by
  induction l generalizing p0 with
  | nil => simp [strings.splitChars] at h
  | cons c cs ih =>
    simp only [strings.splitChars] at h
    by_cases hc : c = sep
    · simp only [hc, if_true, List.cons.injEq] at h
      obtain ⟨h0, h1⟩ := h
      obtain ⟨h2, h3⟩ := strings.splitChars_eq_singleton sep cs p1 h1
      subst h0
      subst h2
      simp [hc, h3]
    · simp only [hc, if_false] at h
      cases hs : strings.splitChars sep cs with
      | nil => exact absurd hs (strings.splitChars_ne_nil sep cs)
      | cons q qs =>
        rw [hs] at h
        simp only [List.cons.injEq] at h
        obtain ⟨hq, hqs⟩ := h
        subst hqs
        obtain ⟨h1, h2, h3⟩ := ih q hs
        subst hq
        refine ⟨by rw [h1]; rfl, ?_, h3⟩
        simp only [List.mem_cons, not_or]
        exact ⟨fun e => hc e.symm, h2⟩

/-- A header `Bearer v` whose value has no space splits into `Bearer` and `v`. -/
theorem strings.Split_bearer (v : String) (hv : ' ' ∉ v.data) :
    strings.Split ("Bearer " ++ v) ' ' = ["Bearer", v] := by
  have hd : ("Bearer " ++ v).data = "Bearer".data ++ ' ' :: v.data := by
    rw [String.data_append]
    rfl
  unfold strings.Split
  rw [hd, strings.splitChars_append _ _ _ (by decide), strings.splitChars_of_not_mem _ _ hv]
  rfl

/-- A header that splits into two pieces, the first of them `Bearer`, is
`Bearer v` for a value `v` without a space, and `v` is the second piece. -/
theorem strings.Split_eq_bearer (h : String)
    (hl : (strings.Split h ' ').length = 2)
    (h0 : (strings.Split h ' ').getD 0 "" = "Bearer") :
    ∃ v : String, h = "Bearer " ++ v ∧ ' ' ∉ v.data ∧ (strings.Split h ' ').getD 1 "" = v := by
  unfold strings.Split at hl h0 ⊢
  cases hs : strings.splitChars ' ' h.data with
  | nil => simp [hs] at hl
  | cons p0 rest =>
    cases rest with
    | nil => simp [hs] at hl
    | cons p1 rest2 =>
      cases rest2 with
      | cons _ _ => simp [hs] at hl
      | nil =>
        rw [hs] at h0
        simp only [List.map_cons, List.getD_cons_zero] at h0
        obtain ⟨e1, _, e3⟩ := strings.splitChars_eq_pair ' ' h.data p0 p1 hs
        have hp0 : p0 = "Bearer".data := by
          have := congrArg String.data h0
          simpa using this
        refine ⟨String.mk p1, ?_, e3, by simp⟩
        apply String.ext
        rw [e1, hp0, String.data_append]
        rfl

/-! ## C11, C12, C13, C14: the authentication gate -/

/-- C11 (amended): for every non-empty Authorization header that is not
`Bearer v` for a value v without a space (v may be empty), `Authenticate`
answers 401, makes no call to the resolver and does not invoke the next
handler. -/
theorem UserMiddleware.Authenticate_malformed (um : UserMiddleware) (r : Request)
    (hne : r.Authorization ≠ "")
    (hmal : ¬ ∃ v : String, r.Authorization = "Bearer " ++ v ∧ ' ' ∉ v.data) :
    um.Authenticate r = invalidHeader := by
  unfold UserMiddleware.Authenticate
  simp only [hne, if_false]
  by_cases hc : (strings.Split r.Authorization (Char.ofNat 32)).length ≠ 2 ∨
      (strings.Split r.Authorization (Char.ofNat 32)).getD 0 "" ≠ "Bearer"
  · rw [if_pos hc]
    rfl
  · exfalso
    simp only [not_or, not_not] at hc
    obtain ⟨v, h1, h2, _⟩ := strings.Split_eq_bearer r.Authorization hc.1 hc.2
    exact hmal ⟨v, h1, h2⟩

/-- Witness of C11: the header "bearer x". -/
theorem UserMiddleware.Authenticate_malformed_witness :
    um0.Authenticate (reqAuth "bearer x") = invalidHeader :=
  UserMiddleware.Authenticate_malformed um0 (reqAuth "bearer x") (by decide)
    (by
      rintro ⟨v, hv, _⟩
      have hd := congrArg String.data hv
      simp [reqAuth] at hd)

/-- C11 as stated fails: the header "Bearer " is not empty and has no value
after the space, and `Authenticate` calls the resolver for it, with the scope
"authentication" and the empty token. -/
theorem UserMiddleware.Authenticate_bearer_empty :
    (reqAuth "Bearer ").Authorization ≠ "" ∧
    um0.Authenticate (reqAuth "Bearer ") = invalidToken "" ∧
    (um0.Authenticate (reqAuth "Bearer ")).resolved = [("authentication", "")] := by
  decide

/-- C12: for a header `Bearer v` whose value has no space, `Authenticate` calls
the resolver once, with the scope "authentication" and the token v; when the
resolver returns a user and no error the next handler is invoked, nothing is
written, and the request handed to the next handler carries that user as its
identity (`GetUser` on it returns that user) with the header and URL parameter
of the original; when the resolver returns an error or no user the answer is
401 with one fixed message, whatever the error, and the next handler is not
invoked. -/
theorem UserMiddleware.Authenticate_bearer (um : UserMiddleware) (r : Request) (v : String)
    (hv : ' ' ∉ v.data) (hh : r.Authorization = "Bearer " ++ v) :
    (um.Authenticate r).resolved = [("authentication", v)] ∧
    (∀ user, um.UserStore.GetUserByToken "authentication" v = (some user, none) →
      um.Authenticate r =
        { response := none, panicked := false, resolved := [("authentication", v)],
          next := some (SetUser r (UserPtr.ptr user)) } ∧
      ∃ r1, (um.Authenticate r).next = some r1 ∧
        GetUser r1 = some (UserPtr.ptr user) ∧
        r1.Authorization = r.Authorization ∧ r1.idParam = r.idParam) ∧
    ((um.UserStore.GetUserByToken "authentication" v).2 ≠ none ∨
        (um.UserStore.GetUserByToken "authentication" v).1 = none →
      um.Authenticate r = invalidToken v ∧
      (um.Authenticate r).next = none ∧
      (um.Authenticate r).response.map Response.code = some 401) := by
  have hne : r.Authorization ≠ "" := by
    rw [hh]
    intro he
    have hd := congrArg String.data he
    simp at hd
  have hs : strings.Split r.Authorization (Char.ofNat 32) = ["Bearer", v] := by
    rw [hh]
    exact strings.Split_bearer v hv
  unfold UserMiddleware.Authenticate
  simp only [hne, if_false, hs]
  have hc : ¬ ((["Bearer", v] : List String).length ≠ 2 ∨
      (["Bearer", v] : List String).getD 0 "" ≠ "Bearer") := by simp
  rw [if_neg hc]
  have h1 : (["Bearer", v] : List String).getD 1 "" = v := rfl
  rw [h1]
  have hsc : ScopeAuth = "authentication" := rfl
  rw [hsc]
  rcases hr : um.UserStore.GetUserByToken "authentication" v with ⟨u, e⟩
  rcases e with _ | e <;> rcases u with _ | u <;> simp [invalidToken, GetUser, SetUser]

/-- Witness of C12: the header `Bearer` followed by the plaintext of the token
`tok0`, which the store of `um7` resolves to user 7; `GetUser` on the request
handed on returns user 7. -/
theorem UserMiddleware.Authenticate_bearer_witness :
    um7.UserStore.GetUserByToken "authentication" plain0 = (some row7.scan, none) ∧
    (um7.Authenticate (reqAuth ("Bearer " ++ plain0))).next.bind GetUser
      = some (UserPtr.ptr row7.scan) ∧
    ((um7.Authenticate (reqAuth ("Bearer " ++ plain0))).resolved = [("authentication", plain0)] ∧
    (∀ user, um7.UserStore.GetUserByToken "authentication" plain0 = (some user, none) →
      um7.Authenticate (reqAuth ("Bearer " ++ plain0)) =
        { response := none, panicked := false, resolved := [("authentication", plain0)],
          next := some (SetUser (reqAuth ("Bearer " ++ plain0)) (UserPtr.ptr user)) } ∧
      ∃ r1, (um7.Authenticate (reqAuth ("Bearer " ++ plain0))).next = some r1 ∧
        GetUser r1 = some (UserPtr.ptr user) ∧
        r1.Authorization = (reqAuth ("Bearer " ++ plain0)).Authorization ∧
        r1.idParam = (reqAuth ("Bearer " ++ plain0)).idParam) ∧
    ((um7.UserStore.GetUserByToken "authentication" plain0).2 ≠ none ∨
        (um7.UserStore.GetUserByToken "authentication" plain0).1 = none →
      um7.Authenticate (reqAuth ("Bearer " ++ plain0)) = invalidToken plain0 ∧
      (um7.Authenticate (reqAuth ("Bearer " ++ plain0))).next = none ∧
      (um7.Authenticate (reqAuth ("Bearer " ++ plain0))).response.map Response.code
        = some 401)) :=
  ⟨by decide, by decide,
   UserMiddleware.Authenticate_bearer um7 (reqAuth ("Bearer " ++ plain0)) plain0
     (by decide) rfl⟩

/-- C13: whenever `Authenticate` invokes the next handler, `GetUser` on the
request it passes returns a user without panicking, and that user is not nil:
it is the sentinel `AnonymousUser` when the Authorization header is absent
(empty), and otherwise the user the resolver returned for the token of the
header. -/
theorem UserMiddleware.Authenticate_identity (um : UserMiddleware) (r r1 : Request)
    (h : (um.Authenticate r).next = some r1) :
    ∃ p, GetUser r1 = some p ∧ p ≠ UserPtr.nil ∧ r1 = SetUser r p ∧
      (r.Authorization = "" → p = UserPtr.AnonymousUser) ∧
      (r.Authorization ≠ "" → ∃ user token,
        um.UserStore.GetUserByToken "authentication" token = (some user, none) ∧
        (um.Authenticate r).resolved = [("authentication", token)] ∧
        p = UserPtr.ptr user) := by
  unfold UserMiddleware.Authenticate at h ⊢
  by_cases hne : r.Authorization = ""
  · simp only [hne, if_true, Option.some.injEq] at h
    subst h
    exact ⟨UserPtr.AnonymousUser, rfl, by simp, rfl, fun _ => rfl, fun hx => absurd hne hx⟩
  · simp only [hne, if_false] at h ⊢
    by_cases hc : (strings.Split r.Authorization (Char.ofNat 32)).length ≠ 2 ∨
        (strings.Split r.Authorization (Char.ofNat 32)).getD 0 "" ≠ "Bearer"
    · rw [if_pos hc] at h
      simp at h
    · rw [if_neg hc] at h ⊢
      have hsc : ScopeAuth = "authentication" := rfl
      rw [hsc] at h ⊢
      rcases hr : um.UserStore.GetUserByToken "authentication"
          ((strings.Split r.Authorization (Char.ofNat 32)).getD 1 "") with ⟨u, e⟩
      rw [hr] at h
      rcases e with _ | e <;> rcases u with _ | u <;> simp at h
      subst h
      refine ⟨UserPtr.ptr u, rfl, by simp, rfl, fun hx => False.elim hx, fun _ => ?_⟩
      exact ⟨u, _, hr, by simp, rfl⟩

/-- Witness of C13: a request without Authorization header. -/
theorem UserMiddleware.Authenticate_identity_witness :
    (um7.Authenticate (reqAuth "")).next = some (SetUser (reqAuth "") UserPtr.AnonymousUser) ∧
    ∃ p, GetUser (SetUser (reqAuth "") UserPtr.AnonymousUser) = some p ∧ p ≠ UserPtr.nil ∧
      SetUser (reqAuth "") UserPtr.AnonymousUser = SetUser (reqAuth "") p ∧
      ((reqAuth "").Authorization = "" → p = UserPtr.AnonymousUser) ∧
      ((reqAuth "").Authorization ≠ "" → ∃ user token,
        um7.UserStore.GetUserByToken "authentication" token = (some user, none) ∧
        (um7.Authenticate (reqAuth "")).resolved = [("authentication", token)] ∧
        p = UserPtr.ptr user) :=
  ⟨by decide,
   UserMiddleware.Authenticate_identity um7 (reqAuth "")
     (SetUser (reqAuth "") UserPtr.AnonymousUser) (by decide)⟩

/-- C14: for a request whose identity is the sentinel `AnonymousUser`,
`RequireUser` answers 401 and does not invoke the wrapped handler; for a
request whose identity is a user, it writes nothing and invokes the wrapped
handler with the request. -/
theorem UserMiddleware.RequireUser_gate (r : Request) :
    (GetUser r = some UserPtr.AnonymousUser →
      UserMiddleware.RequireUser r =
        { response := some
            { code := 401, status := "fail",
              message := "You must be logged in to access this route.", auth_token := none },
          panicked := false, resolved := [], next := none }) ∧
    (∀ user, GetUser r = some (UserPtr.ptr user) →
      UserMiddleware.RequireUser r =
        { response := none, panicked := false, resolved := [], next := some r }) := by
  constructor
  · intro h
    simp [UserMiddleware.RequireUser, h, UserPtr.IsAnonymous]
  · intro user h
    simp [UserMiddleware.RequireUser, h, UserPtr.IsAnonymous]

/-! ## C17: what Set leaves in the Password value -/

/-- C17 (amended): after `Set(p)` returns without error the `Password` value
holds p itself in `Plaintext` next to the new hash in `Hash`; the plaintext is
not persisted: the table that `CreateUser` leaves is the one it would leave
had the value held the hash only. -/
theorem Password.Set_retains (B : Bcrypt) (rng : RandReader) (p0 : Password) (pw : String)
    (h : (Password.Set B rng p0 pw).2 = none) :
    (Password.Set B rng p0 pw).1.Plaintext = pw ∧
    (Password.Set B rng p0 pw).1.Hash
      = B.encode 13 rng.salt (B.digest (bytesOf pw) 13 rng.salt) ∧
    ∀ (fault : Option Error) (newID createdAt updatedAt : Int) (db : DB) (user : User),
      (PostgresUserStore.CreateUser fault newID createdAt updatedAt db
          { user with PasswordHash := (Password.Set B rng p0 pw).1 }).1
        = (PostgresUserStore.CreateUser fault newID createdAt updatedAt db
          { user with PasswordHash :=
              { Plaintext := "", Hash := (Password.Set B rng p0 pw).1.Hash } }).1 := by
  obtain ⟨_, _, hset⟩ := Password.Set_ok B rng p0 pw h
  rw [hset]
  refine ⟨rfl, rfl, ?_⟩
  intro fault newID createdAt updatedAt db user
  cases fault <;> rfl

/-- Witness of C17: "password1234" set on a fresh value. -/
theorem Password.Set_retains_witness :
    (Password.Set Bcrypt.model rng0 Password.zero "password1234").2 = none ∧
    ((Password.Set Bcrypt.model rng0 Password.zero "password1234").1.Plaintext
        = "password1234" ∧
     (Password.Set Bcrypt.model rng0 Password.zero "password1234").1.Hash
        = Bcrypt.model.encode 13 rng0.salt
            (Bcrypt.model.digest (bytesOf "password1234") 13 rng0.salt) ∧
     ∀ (fault : Option Error) (newID createdAt updatedAt : Int) (db : DB) (user : User),
      (PostgresUserStore.CreateUser fault newID createdAt updatedAt db
          { user with
            PasswordHash := (Password.Set Bcrypt.model rng0 Password.zero "password1234").1 }).1
        = (PostgresUserStore.CreateUser fault newID createdAt updatedAt db
          { user with PasswordHash :=
              { Plaintext := "",
                Hash := (Password.Set Bcrypt.model rng0 Password.zero "password1234").1.Hash } }).1) :=
  ⟨by decide,
   Password.Set_retains Bcrypt.model rng0 Password.zero "password1234" (by decide)⟩

/-- C17 as stated fails: after `Set("password1234")` has returned without
error, the `Password` value holds the plaintext "password1234". -/
theorem Password.Set_keeps_plaintext :
    (Password.Set Bcrypt.model rng0 Password.zero "password1234").2 = none ∧
    (Password.Set Bcrypt.model rng0 Password.zero "password1234").1.Plaintext
      = "password1234" ∧
    (Password.Set Bcrypt.model rng0 Password.zero "password1234").1.Plaintext ≠ "" := by
  decide

/-! ## Facts about the workout handlers -/

/-- The assignments of the update go through when the workout exists. -/
theorem applyUpdate_some (w : Workout) (req : updateWorkoutRequest) :
    ∃ w1, applyUpdate (some w) req = some (some w1) ∧ w1.ID = w.ID ∧ w1.UserID = w.UserID := by
  obtain ⟨t, d, m, c, e⟩ := req
  cases t <;> cases d <;> cases m <;> cases c <;> cases e <;> exact ⟨_, rfl, rfl, rfl⟩

/-- On a nil workout the assignments dereference nil as soon as the update sets
a field, and do nothing when it sets none. -/
theorem applyUpdate_none (req : updateWorkoutRequest) :
    applyUpdate none req = if req = updateNothing then some none else none := by
  obtain ⟨t, d, m, c, e⟩ := req
  cases t <;> cases d <;> cases m <;> cases c <;> cases e <;>
    simp [applyUpdate, assignField, updateNothing]

/-- The two queries of the store on an ID that no row of `workouts` has. -/
theorem PostgresWorkoutStore.missing (t : WorkoutTables) (id : Int)
    (h : ∀ row ∈ t.workouts, row.id ≠ id) :
    PostgresWorkoutStore.GetWorkoutByID t id = (none, none) ∧
    PostgresWorkoutStore.GetWorkoutOwner t id = (0, some Error.ErrNoRows) := by
  have hf : t.workouts.filter (fun w => decide (w.id = id)) = [] := by
    rw [List.filter_eq_nil_iff]
    intro row hrow
    simpa using h row hrow
  simp [PostgresWorkoutStore.GetWorkoutByID, PostgresWorkoutStore.GetWorkoutOwner, hf]

/-! ## C15, C16, C18, C19: the workout handlers -/

/-- C15 (amended): for an authenticated user u and an existing workout with
owner o, the delete handler, and the update handler on a decodable body, call
the store mutation (once, for that workout) exactly when o equals u.ID, and
when o differs from u.ID they answer 403 and call no store mutation. -/
theorem WorkoutHandler.owner_gate (wh : WorkoutHandler) (r : Request) (u : User)
    (workoutID o : Int) (w : Workout) (req : updateWorkoutRequest)
    (hid : utils.ReadIDParam r = (workoutID, none))
    (hu : GetUser r = some (UserPtr.ptr u))
    (hw : wh.workoutStore.GetWorkoutByID workoutID = (some w, none))
    (ho : wh.workoutStore.GetWorkoutOwner workoutID = (o, none)) :
    ((wh.HandleUpdateWorkoutByID r req none).calls ≠ [] ↔ o = u.ID) ∧
    (o = u.ID → ∃ w1, applyUpdate (some w) req = some (some w1) ∧
      (wh.HandleUpdateWorkoutByID r req none).calls = [StoreCall.UpdateWorkoutByID (some w1)]) ∧
    (o ≠ u.ID → wh.HandleUpdateWorkoutByID r req none
      = WorkoutRun.reply 403 "fail" "You are not authorized to update this workout.") ∧
    ((wh.HandleDeleteWorkoutByID r).calls ≠ [] ↔ o = u.ID) ∧
    (o = u.ID →
      (wh.HandleDeleteWorkoutByID r).calls = [StoreCall.DeleteWorkoutByID workoutID]) ∧
    (o ≠ u.ID → wh.HandleDeleteWorkoutByID r
      = WorkoutRun.reply 403 "fail" "You are not authorized to delete this workout.") := by
  obtain ⟨w1, hw1, _, _⟩ := applyUpdate_some w req
  have hupd : ∀ (h : o = u.ID),
      (wh.HandleUpdateWorkoutByID r req none).calls = [StoreCall.UpdateWorkoutByID (some w1)] := by
    intro h
    rcases hs : wh.workoutStore.UpdateWorkoutByID w1 with ⟨w2, e⟩
    cases e <;>
      simp [WorkoutHandler.HandleUpdateWorkoutByID, hid, hw, hw1, hu, ho, h, hs]
  have hupd403 : o ≠ u.ID → wh.HandleUpdateWorkoutByID r req none
      = WorkoutRun.reply 403 "fail" "You are not authorized to update this workout." := by
    intro h
    simp [WorkoutHandler.HandleUpdateWorkoutByID, hid, hw, hw1, hu, ho, h]
  have hdel : o = u.ID →
      (wh.HandleDeleteWorkoutByID r).calls = [StoreCall.DeleteWorkoutByID workoutID] := by
    intro h
    rcases hs : wh.workoutStore.DeleteWorkoutByID workoutID with _ | e
    · simp [WorkoutHandler.HandleDeleteWorkoutByID, hid, hu, ho, h, hs]
    · by_cases he : e = Error.ErrNoRows <;>
        simp [WorkoutHandler.HandleDeleteWorkoutByID, hid, hu, ho, h, hs, he]
  have hdel403 : o ≠ u.ID → wh.HandleDeleteWorkoutByID r
      = WorkoutRun.reply 403 "fail" "You are not authorized to delete this workout." := by
    intro h
    simp [WorkoutHandler.HandleDeleteWorkoutByID, hid, hu, ho, h]
  refine ⟨?_, fun h => ⟨w1, hw1, hupd h⟩, hupd403, ?_, hdel, hdel403⟩
  · constructor
    · intro hc
      by_contra hne
      rw [hupd403 hne] at hc
      exact hc rfl
    · intro h
      rw [hupd h]
      simp
  · constructor
    · intro hc
      by_contra hne
      rw [hdel403 hne] at hc
      exact hc rfl
    · intro h
      rw [hdel h]
      simp

/-- Witness of C15: scenario e of the specification, user 3 on the workout 1
that user 9 owns. -/
theorem WorkoutHandler.owner_gate_witness :
    utils.ReadIDParam (reqWorkout "1" (UserPtr.ptr user3)) = (1, none) ∧
    GetUser (reqWorkout "1" (UserPtr.ptr user3)) = some (UserPtr.ptr user3) ∧
    (whOf tables0).workoutStore.GetWorkoutByID 1 = (some workout1, none) ∧
    (whOf tables0).workoutStore.GetWorkoutOwner 1 = (9, none) ∧
    ((9 : Int) ≠ user3.ID →
      (whOf tables0).HandleUpdateWorkoutByID (reqWorkout "1" (UserPtr.ptr user3)) updateTitle none
        = WorkoutRun.reply 403 "fail" "You are not authorized to update this workout.") ∧
    ((9 : Int) ≠ user3.ID →
      (whOf tables0).HandleDeleteWorkoutByID (reqWorkout "1" (UserPtr.ptr user3))
        = WorkoutRun.reply 403 "fail" "You are not authorized to delete this workout.") :=
  ⟨by decide, by decide, by decide, by decide,
   (WorkoutHandler.owner_gate (whOf tables0) (reqWorkout "1" (UserPtr.ptr user3)) user3 1 9
      workout1 updateTitle (by decide) (by decide) (by decide) (by decide)).2.2.1,
   (WorkoutHandler.owner_gate (whOf tables0) (reqWorkout "1" (UserPtr.ptr user3)) user3 1 9
      workout1 updateTitle (by decide) (by decide) (by decide) (by decide)).2.2.2.2.2⟩

/-- C15 as stated fails: on a body that does not decode, the update handler
answers 400 to user 3, who does not own workout 1, and makes no call to the
store mutation for user 9, who owns it. -/
theorem WorkoutHandler.update_undecodable :
    (whOf tables0).workoutStore.GetWorkoutByID 1 = (some workout1, none) ∧
    (whOf tables0).workoutStore.GetWorkoutOwner 1 = (9, none) ∧
    (whOf tables0).HandleUpdateWorkoutByID (reqWorkout "1" (UserPtr.ptr user3)) updateTitle
        (some (Error.other "unexpected EOF"))
      = WorkoutRun.reply 400 "fail"
          "Invalid request payload. Please ensure all fields are correctly provided." ∧
    user9.ID = 9 ∧
    ((whOf tables0).HandleUpdateWorkoutByID (reqWorkout "1" (UserPtr.ptr user9)) updateTitle
        (some (Error.other "unexpected EOF"))).calls = [] := by
  decide

/-- The update handler on a workout ID that the table does not hold, for an
authenticated user and a decodable body: a nil pointer dereference as soon as
the body sets a field, 404 when it sets none. -/
theorem WorkoutHandler.update_missing (t : WorkoutTables) (r : Request) (u : User)
    (workoutID : Int) (req : updateWorkoutRequest)
    (hid : utils.ReadIDParam r = (workoutID, none))
    (hu : GetUser r = some (UserPtr.ptr u))
    (h : ∀ row ∈ t.workouts, row.id ≠ workoutID) :
    (whOf t).HandleUpdateWorkoutByID r req none =
      if req = updateNothing then
        WorkoutRun.reply 404 "fail" "The workout you are trying to update could not be found."
      else WorkoutRun.panic := by
  obtain ⟨h1, h2⟩ := PostgresWorkoutStore.missing t workoutID h
  by_cases hr : req = updateNothing
  · simp [WorkoutHandler.HandleUpdateWorkoutByID, whOf, hid, h1, h2, hu, applyUpdate_none, hr,
      errorsIs]
  · simp [WorkoutHandler.HandleUpdateWorkoutByID, whOf, hid, h1, applyUpdate_none, hr]

/-- The delete handler on a workout ID that the table does not hold, for an
authenticated user: 404. -/
theorem WorkoutHandler.delete_missing (t : WorkoutTables) (r : Request) (u : User)
    (workoutID : Int)
    (hid : utils.ReadIDParam r = (workoutID, none))
    (hu : GetUser r = some (UserPtr.ptr u))
    (h : ∀ row ∈ t.workouts, row.id ≠ workoutID) :
    (whOf t).HandleDeleteWorkoutByID r =
      WorkoutRun.reply 404 "fail" "The workout you are trying to delete could not be found." := by
  obtain ⟨_, h2⟩ := PostgresWorkoutStore.missing t workoutID h
  simp [WorkoutHandler.HandleDeleteWorkoutByID, whOf, hid, h2, hu, errorsIs]

/-- The get handler on a workout ID that the table does not hold: the success
response with a null workout is handed to `WriteJSON`, and when that write
succeeds the nil workout is dereferenced. -/
theorem WorkoutHandler.get_missing (t : WorkoutTables) (r : Request) (workoutID : Int)
    (writeErr : Option Error)
    (hid : utils.ReadIDParam r = (workoutID, none))
    (h : ∀ row ∈ t.workouts, row.id ≠ workoutID) :
    (whOf t).HandleGetWorkoutByID r writeErr =
      { response := some { code := 200, status := "success", message := "", workout := none },
        panicked := writeErr.isNone, calls := [] } := by
  obtain ⟨h1, _⟩ := PostgresWorkoutStore.missing t workoutID h
  cases writeErr <;> simp [WorkoutHandler.HandleGetWorkoutByID, whOf, hid, h1]

/-- C16 (code bug): workout 42 is not in the table, user 3 is authenticated and
the body decodes and sets the title; `GetWorkoutByID` returns `nil, nil`, the
update handler does not answer 404 but dereferences the nil workout and
panics, while the delete handler answers 404. -/
theorem WorkoutHandler.update_missing_workout :
    (whOf tables0).workoutStore.GetWorkoutByID 42 = (none, none) ∧
    (whOf tables0).HandleUpdateWorkoutByID (reqWorkout "42" (UserPtr.ptr user3)) updateTitle none
      = { response := none, panicked := true, calls := [] } ∧
    (whOf tables0).HandleDeleteWorkoutByID (reqWorkout "42" (UserPtr.ptr user3))
      = WorkoutRun.reply 404 "fail" "The workout you are trying to delete could not be found." := by
  decide

/-- C18 (code bug): workout 42 is not in the table; `GetWorkoutByID` returns
`nil, nil`, and the get handler does not answer 404 but hands the success
response 200 with a null workout to `WriteJSON` and then dereferences the nil
workout and panics. -/
theorem WorkoutHandler.get_missing_workout :
    (whOf tables0).workoutStore.GetWorkoutByID 42 = (none, none) ∧
    (whOf tables0).HandleGetWorkoutByID (reqWorkout "42" (UserPtr.ptr user3)) none
      = { response := some { code := 200, status := "success", message := "", workout := none },
          panicked := true, calls := [] } := by
  decide

/-- C19: for an authenticated user u and a body that decodes, whatever
`user_id` it carries, `HandleCreateWorkout` calls `CreateWorkout` once, with the
decoded workout in which `UserID` is u.ID; for the identity `AnonymousUser` it
makes no call to `CreateWorkout` and, when the body decodes, answers 400. -/
theorem WorkoutHandler.HandleCreateWorkout_owner (wh : WorkoutHandler) (r : Request)
    (workout : Workout) (decodeErr : Option Error) :
    (∀ u, decodeErr = none → GetUser r = some (UserPtr.ptr u) →
      (wh.HandleCreateWorkout r workout decodeErr).calls
        = [StoreCall.CreateWorkout { workout with UserID := u.ID }]) ∧
    (GetUser r = some UserPtr.AnonymousUser →
      (wh.HandleCreateWorkout r workout decodeErr).calls = [] ∧
      (decodeErr = none → wh.HandleCreateWorkout r workout decodeErr
        = WorkoutRun.reply 400 "fail" "You must be logged in to create a new workout.")) := by
  constructor
  · intro u hd hu
    subst hd
    rcases hs : wh.workoutStore.CreateWorkout { workout with UserID := u.ID } with ⟨w1, e⟩
    cases e <;> simp [WorkoutHandler.HandleCreateWorkout, hu, hs]
  · intro hu
    cases decodeErr with
    | some e => simp [WorkoutHandler.HandleCreateWorkout, WorkoutRun.reply]
    | none => simp [WorkoutHandler.HandleCreateWorkout, hu, WorkoutRun.reply]

/-- The create handler evaluated: a body that names user 9 as owner, sent by
user 3, is stored for user 3; sent without identity it is not stored. -/
theorem scenario_create_workout :
    newWorkout.UserID = 9 ∧
    ((whOf tables0).HandleCreateWorkout (reqWorkout "" (UserPtr.ptr user3)) newWorkout none).calls
      = [StoreCall.CreateWorkout { newWorkout with UserID := 3 }] ∧
    (whOf tables0).HandleCreateWorkout (reqWorkout "" UserPtr.AnonymousUser) newWorkout none
      = WorkoutRun.reply 400 "fail" "You must be logged in to create a new workout." := by
  decide

/-- The gate and the guard in sequence: a request without Authorization header
passes `Authenticate` as anonymous and is stopped by `RequireUser` with 401
(scenario f); a request with a live token passes both. -/
theorem scenario_require_user :
    (um7.Authenticate (reqAuth "")).next.map UserMiddleware.RequireUser
      = some { response := some
                { code := 401, status := "fail",
                  message := "You must be logged in to access this route.",
                  auth_token := none },
               panicked := false, resolved := [], next := none } ∧
    ((um7.Authenticate (reqAuth ("Bearer " ++ plain0))).next.map UserMiddleware.RequireUser).map
        MiddlewareRun.next
      = some (some (SetUser (reqAuth ("Bearer " ++ plain0)) (UserPtr.ptr row7.scan))) := by
  decide

/-- The gate answers alike for a token that was never issued, for a token past
its expiry and for a token stored under another scope, and lets the live token
through. -/
theorem scenario_collapsed_failures :
    (umOf 0 db0).Authenticate (reqAuth ("Bearer " ++ plain0)) = invalidToken plain0 ∧
    (umOf (24 * Hour) { db0 with tokens := [tok0.row] }).Authenticate
        (reqAuth ("Bearer " ++ plain0)) = invalidToken plain0 ∧
    (umOf 0 { db0 with tokens := [{ tok0.row with scope := "activation" }] }).Authenticate
        (reqAuth ("Bearer " ++ plain0)) = invalidToken plain0 ∧
    ((umOf 0 { db0 with tokens := [tok0.row] }).Authenticate
        (reqAuth ("Bearer " ++ plain0))).next
      = some (SetUser (reqAuth ("Bearer " ++ plain0)) (UserPtr.ptr row7.scan)) := by
  decide

end Repx
